import Mathlib

/-!
Screen.cpp: frame loop, placement correction, collision pass, viewport, scheduler.

A shallow embedding of `src/Screen.cpp` (namespace `Engine`).

Conventions of the embedding:

* `float` values (`sf::Vector2f`, `sf::FloatRect`) are values of an arbitrary linearly
  ordered commutative ring `K` with a floor function (`ℚ` and `ℤ` are instances), so that
  every theorem holds for rational and for integer coordinates;
* in the placement step (lines 250-306) every binary32 operation goes through a rounding
  function `fl : K → K`, a parameter of the definitions: an addition of floats, or a
  conversion of an `unsigned int` to `float`, whose exact result is `v` yields `fl v`;
  the viewport follower is modelled in exact arithmetic;
* `unsigned int` values are `Nat` with an explicit `% 2^32` where the source
  subtracts or multiplies them;
* a `GameObject*` is represented by the object it points to, and pointer
  equality by equality of the object's `GameObjectID` (every object has one id);
* a `std::map<GameObjectID, GameObject*>` is an association list in key order;
* effects on collaborators (callbacks, `delete`) are recorded in logs.
-/

set_option linter.unusedSectionVars false

namespace Engine

/-! ## Geometry and collaborators -/

variable {K : Type} [LinearOrderedCommRing K] [FloorRing K]

/-- An `sf::Vector2f`. -/
abbrev Vec2 (K : Type) := K × K

/-- An `sf::FloatRect`. -/
structure FloatRect (K : Type) where
  left : K
  top : K
  width : K
  height : K
deriving DecidableEq

/-- Conversion of an `int` to `unsigned int`. -/
def toUnsigned (i : Int) : Nat := (i % 2 ^ 32).toNat

/-- The conversion `static_cast<unsigned int>(f)` of a float: truncation, kept in 32 bits. -/
def floatToUnsigned (f : K) : Nat := (Int.toNat ⌊f⌋) % 2 ^ 32

/-- Subtraction of two `unsigned int` values. -/
def subU32 (a b : Nat) : Nat := (a % 2 ^ 32 + 2 ^ 32 - b % 2 ^ 32) % 2 ^ 32

/-- Multiplication of two `unsigned int` values. -/
def mulU32 (a b : Nat) : Nat := (a * b) % 2 ^ 32

/-- The tile-map collaborator, as far as `Screen::render` uses it. -/
structure TileMap (K : Type) where
  width : Nat
  height : Nat
  tileSize : Nat × Nat
  isObstacle : Vec2 K → Bool
  safeSpawnPositions : List (Vec2 K)

/-- An `sf::Sprite`, as far as `Screen::render` reads it: its position, the width and
height of its texture rectangle, and the rectangle `getGlobalBounds()` returns. -/
structure Sprite (K : Type) where
  position : Vec2 K
  textureRectWidth : Int
  textureRectHeight : Int
  globalBounds : FloatRect K
deriving DecidableEq

/-- The drawable of a graphical object, by what the `dynamic_cast`s of the source can tell. -/
inductive Graphic (K : Type) where
  | sprite (s : Sprite K)
  | transformable (position : Vec2 K)
  | drawable
deriving DecidableEq

/-- The position of the graphic seen as an `sf::Transformable` (`none` when the cast fails). -/
def Graphic.getPosition : Graphic K → Option (Vec2 K)
  | .sprite s => some s.position
  | .transformable p => some p
  | .drawable => none

/-- The call `transformable->setPosition(p)`; the global bounds of a sprite move along. -/
def Graphic.setPosition (p : Vec2 K) : Graphic K → Graphic K
  | .sprite s =>
    .sprite { s with
      position := p
      globalBounds := { s.globalBounds with
        left := s.globalBounds.left + (p.1 - s.position.1)
        top := s.globalBounds.top + (p.2 - s.position.2) } }
  | .transformable _ => .transformable p
  | .drawable => .drawable

/-- A `GraphicalGameObject`, with the members `Screen::render` reads and writes. -/
structure GraphicalGameObject (K : Type) where
  id : Nat
  eventsDisabled : Bool
  ignoreObstacles : Bool
  triggerCollisionEvents : Bool
  spawnCollisionsResolved : Bool
  lastPos : Vec2 K
  obstacleCollisionSize : FloatRect K
  graphic : Graphic K
deriving DecidableEq

/-- The object after `setPosition(p)` on its graphic. -/
def GraphicalGameObject.setPosition (obj : GraphicalGameObject K) (p : Vec2 K) : GraphicalGameObject K :=
  { obj with graphic := obj.graphic.setPosition p }

/-- The object on leaving the placement loop at position `q` (lines 292-302): the graphic
stands at `q`, the flag `spawnCollisionsResolved` has the value the loop left, and
`lastPos` is `q`. -/
def GraphicalGameObject.leaveAt (obj : GraphicalGameObject K) (q : Vec2 K) (resolved : Bool) :
    GraphicalGameObject K :=
  { obj with
    graphic := obj.graphic.setPosition q
    spawnCollisionsResolved := resolved
    lastPos := q }

/-! ## Placement correction (`Screen::render`, lines 250-306) -/

/-- The local `size` of lines 254-255: `(0, 0)`, or the texture rectangle of a sprite. -/
def naturalSize : Graphic K → Nat × Nat
  | .sprite s => (toUnsigned s.textureRectWidth, toUnsigned s.textureRectHeight)
  | _ => (0, 0)

/-- The four edge checks of lines 258-261, each reading the position the previous one left.
The sums `Y + size.y` and `X + size.x` are binary32 additions of the position and the
size converted to `float`, compared with the extent converted to `float`; the difference
`mapHeight - size.y` is taken in `unsigned int` and then converted. -/
def clampToMap (fl : K → K) (mapWidth mapHeight : Nat) (size : Nat × Nat) (p : Vec2 K) : Vec2 K :=
  let p1 : Vec2 K := if p.1 < 0 then (0, p.2) else p
  let p2 : Vec2 K := if p1.2 < 0 then (p1.1, 0) else p1
  let p3 : Vec2 K :=
    if fl (p2.2 + fl (size.2 : K)) > fl (mapHeight : K) then
      (p2.1, fl (subU32 mapHeight size.2 : K))
    else p2
  let p4 : Vec2 K :=
    if fl (p3.1 + fl (size.1 : K)) > fl (mapWidth : K) then
      (fl (subU32 mapWidth size.1 : K), p3.2)
    else p3
  p4

/-- The locals `offsets` and `size` after lines 263-270: the override box wins when it has
positive width and height. -/
def collisionBox (obj : GraphicalGameObject K) : Vec2 K × (Nat × Nat) :=
  if obj.obstacleCollisionSize.width > 0 ∧ obj.obstacleCollisionSize.height > 0 then
    ((obj.obstacleCollisionSize.left, obj.obstacleCollisionSize.top),
     (floatToUnsigned obj.obstacleCollisionSize.width, floatToUnsigned obj.obstacleCollisionSize.height))
  else ((0, 0), naturalSize obj.graphic)

/-- The array `corners` of lines 274-279, for the position `p`: each coordinate is a
binary32 sum of the position and the offset, or of the position and the binary32 sum of
the size (converted to `float`) and the offset. -/
def corners (fl : K → K) (offsets : Vec2 K) (size : Nat × Nat) (p : Vec2 K) : List (Vec2 K) :=
  [ (fl (p.1 + offsets.1), fl (p.2 + offsets.2)),
    (fl (p.1 + fl (fl (size.1 : K) + offsets.1)), fl (p.2 + offsets.2)),
    (fl (p.1 + offsets.1), fl (p.2 + fl (fl (size.2 : K) + offsets.2))),
    (fl (p.1 + fl (fl (size.1 : K) + offsets.1)), fl (p.2 + fl (fl (size.2 : K) + offsets.2))) ]

/-- The `do ... while (!obj->spawnCollisionsResolved)` loop of lines 272-300, started at
position `p`. Each call of `rand()` takes the next value of `rands`; the result is `none`
when the values run out before the loop ends, and when `rand() % positions.size()` divides
by zero. The result is the position and the flag `spawnCollisionsResolved` on exit. -/
def resolveLoop (fl : K → K) (tMap : TileMap K) (offsets : Vec2 K) (size : Nat × Nat)
    (lastPos : Vec2 K) : List Nat → Bool → Vec2 K → Option (Vec2 K × Bool)
  | rands, resolved, p =>
    if (corners fl offsets size p).any tMap.isObstacle then
      if resolved then some (lastPos, resolved)
      else
        match rands with
        | [] => none
        | r :: rest =>
          match tMap.safeSpawnPositions[r % tMap.safeSpawnPositions.length]? with
          | none => none
          | some q => resolveLoop fl tMap offsets size lastPos rest resolved q
    else some (p, true)

/-- The width and height of the map in pixels (lines 234-242); zero without a tile map. -/
def mapExtent : Option (TileMap K) → Nat × Nat
  | none => (0, 0)
  | some t => (mulU32 t.width t.tileSize.1, mulU32 t.height t.tileSize.2)

/-- The placement correction of one world-graphical object in one tick (lines 250-306).
The result is `none` when the step does not complete. -/
def placementCorrection (fl : K → K) (tMap : Option (TileMap K)) (rands : List Nat)
    (obj : GraphicalGameObject K) : Option (GraphicalGameObject K) :=
  if obj.ignoreObstacles then some obj
  else
    match obj.graphic.getPosition with
    | none => some obj
    | some p =>
      let ext := mapExtent tMap
      let p' := clampToMap fl ext.1 ext.2 (naturalSize obj.graphic) p
      let box := collisionBox obj
      match tMap with
      | none => none
      | some t =>
        match resolveLoop fl t box.1 box.2 obj.lastPos rands obj.spawnCollisionsResolved p' with
        | none => none
        | some (q, resolved) =>
          some (obj.leaveAt q resolved)

/-- A sequence of ticks of one object: before each tick the object is moved to an arbitrary
position, then the placement correction of the tick runs with that tick's `rand()` values. -/
def runTicks (fl : K → K) (tMap : Option (TileMap K)) :
    GraphicalGameObject K → List (Vec2 K × List Nat) → Option (GraphicalGameObject K)
  | obj, [] => some obj
  | obj, (p, rands) :: rest =>
    match placementCorrection fl tMap rands (obj.setPosition p) with
    | none => none
    | some obj' => runTicks fl tMap obj' rest

/-- A 100 x 100 map whose right half is an obstacle, with one safe spawn point. -/
def sampleMap : TileMap K :=
  { width := 10, height := 10, tileSize := (10, 10),
    isObstacle := fun p => decide (50 ≤ p.1),
    safeSpawnPositions := [(5, 5)] }

/-- A sprite-backed object of natural size 8 x 8 without an override box, not yet resolved. -/
def sampleObject : GraphicalGameObject K :=
  { id := 1, eventsDisabled := false, ignoreObstacles := false, triggerCollisionEvents := true,
    spawnCollisionsResolved := false, lastPos := (0, 0),
    obstacleCollisionSize := ⟨0, 0, 0, 0⟩,
    graphic := .sprite ⟨(0, 0), 8, 8, ⟨0, 0, 8, 8⟩⟩ }

/-- Two ticks: the object is put on the obstacle at `(60, 60)` with one `rand()` value at
hand, then at `(70, 3)`. -/
def sampleTicks : List (Vec2 K × List Nat) := [((60, 60), [0]), ((70, 3), [])]

/-- The sample object after the two sample ticks: resolved, on the safe spawn point. -/
def sampleObjectAfter : GraphicalGameObject K :=
  { sampleObject with
    spawnCollisionsResolved := true, lastPos := (5, 5),
    graphic := .sprite ⟨(5, 5), 8, 8, ⟨5, 5, 8, 8⟩⟩ }

/-- A 100 x 100 map over the rationals with an obstacle from `x = 41.25` on. -/
def fractionalBoxMap : TileMap ℚ :=
  { width := 10, height := 10, tileSize := (10, 10),
    isObstacle := fun p => decide (165 / 4 ≤ p.1),
    safeSpawnPositions := [(5, 5)] }

/-- A sprite of natural size 1 x 1 with an override collision box of size 1.5 x 1.5 at
offset `(0, 0)`, not yet resolved. -/
def fractionalBoxObject : GraphicalGameObject ℚ :=
  { id := 6, eventsDisabled := false, ignoreObstacles := false, triggerCollisionEvents := true,
    spawnCollisionsResolved := false, lastPos := (0, 0),
    obstacleCollisionSize := ⟨0, 0, 3 / 2, 3 / 2⟩,
    graphic := .sprite ⟨(0, 0), 1, 1, ⟨0, 0, 1, 1⟩⟩ }

/-- The object with the fractional box after a tick that put it at `(40, 10)`: resolved,
and left at `(40, 10)`. -/
def fractionalBoxObjectAfter : GraphicalGameObject ℚ :=
  { fractionalBoxObject with
    spawnCollisionsResolved := true, lastPos := (40, 10),
    graphic := .sprite ⟨(40, 10), 1, 1, ⟨40, 10, 1, 1⟩⟩ }

/-- The state of an object whose placement has been corrected at least once: it is
resolved, it stands on its last good position, and none of the corner points the loop
computes there is on an obstacle. -/
def Placed (fl : K → K) (tMap : TileMap K) (obj : GraphicalGameObject K) : Prop :=
  obj.spawnCollisionsResolved = true ∧ obj.graphic.getPosition = some obj.lastPos ∧
    (corners fl (collisionBox obj).1 (collisionBox obj).2 obj.lastPos).any tMap.isObstacle = false

/-! ## Registry: `Screen::remove` (lines 50-69) and the deferred-removal drain (lines 407-425) -/

/-- A `GameObjectID`. -/
abbrev GameObjectID := Nat

/-- A `GameObject`, as far as the registry and the update phase read it. -/
structure GameObject where
  id : GameObjectID
  eventsDisabled : Bool
deriving DecidableEq

/-- A `std::map<GameObjectID, GameObject*>`. -/
abbrev GameObjectMap := List (GameObjectID × GameObject)

/-- The test `map->find(id) != map->end()`. -/
def GameObjectMap.contains (m : GameObjectMap) (id : GameObjectID) : Bool :=
  m.any (fun kv => kv.1 == id)

/-- The call `map->erase(id)`: no entry with the key `id` is left. -/
def GameObjectMap.erase (m : GameObjectMap) (id : GameObjectID) : GameObjectMap :=
  m.filter (fun kv => kv.1 != id)

/-- A `Screen`: its address (`this`) and its three collections. -/
structure Screen where
  addr : Nat
  objects : GameObjectMap
  gObjects : GameObjectMap
  uiObjects : GameObjectMap
deriving DecidableEq

/-- The file-level variables of `Screen.cpp` that removal and the loop use, with two logs of
effects on the objects: the objects freed by `delete`, and the objects whose
`RemovedFromScreen()` was invoked, both in order. -/
structure Statics where
  currentScreen : Option Nat
  removeQueue : List (GameObject × Bool)
  running : Bool
  deleted : List GameObjectID
  removedFromScreen : List GameObjectID
deriving DecidableEq

/-- The loop `for (auto map : { &objects, &gObjects, &uiObjects })` of lines 54-63 and
414-424: the first collection that holds `id` loses it; the result says whether one did. -/
def Screen.eraseFirst (scr : Screen) (id : GameObjectID) : Screen × Bool :=
  if scr.objects.contains id then ({ scr with objects := scr.objects.erase id }, true)
  else if scr.gObjects.contains id then ({ scr with gObjects := scr.gObjects.erase id }, true)
  else if scr.uiObjects.contains id then ({ scr with uiObjects := scr.uiObjects.erase id }, true)
  else (scr, false)

/-- The function `Screen::remove` (lines 50-69), called on the screen `scr`. -/
def Screen.remove (scr : Screen) (g : Statics) (gameObject : GameObject) (autoDelete : Bool) :
    Screen × Statics :=
  if some scr.addr ≠ g.currentScreen then
    let r := scr.eraseFirst gameObject.id
    (r.1, if r.2 && autoDelete then { g with deleted := g.deleted ++ [gameObject.id] } else g)
  else
    (scr, { g with removeQueue := g.removeQueue ++ [(gameObject, autoDelete)] })

/-- One turn of the loop `while (!removeQueue.empty())` of lines 408-425, for the entry at
the front of the queue; `scr` is the current screen. -/
def drainEntry (scr : Screen) (g : Statics) (pRemove : GameObject × Bool) : Screen × Statics :=
  let r := scr.eraseFirst pRemove.1.id
  if r.2 then
    (r.1, { g with
      removedFromScreen := g.removedFromScreen ++ [pRemove.1.id]
      deleted := if pRemove.2 then g.deleted ++ [pRemove.1.id] else g.deleted })
  else (scr, g)

/-- The entries of the queue applied in order, front first. -/
def drainEntries : List (GameObject × Bool) → Screen × Statics → Screen × Statics
  | [], st => st
  | e :: rest, st => drainEntries rest (drainEntry st.1 st.2 e)

/-- The deferred-removal drain of lines 407-425 on the current screen `scr`: every queued
entry is popped and applied, and the queue is empty afterwards. -/
def drainRemoveQueue (scr : Screen) (g : Statics) : Screen × Statics :=
  drainEntries g.removeQueue (scr, { g with removeQueue := [] })

/-! ## Scheduler (lines 466-495) -/

/-- The data members of `Scheduler` (`func` apart). -/
structure Scheduler where
  delay : Nat
  countdown : Nat
  repeatsRemaining : Nat
  infinite : Bool
deriving DecidableEq

/-- The constructor of line 475, with the `uint64_t` and `uint16_t` parameters. -/
def Scheduler.new (delay repeatCount : Nat) : Scheduler :=
  { delay := delay % 2 ^ 64
    countdown := delay % 2 ^ 64
    repeatsRemaining := repeatCount % 2 ^ 16
    infinite := repeatCount % 2 ^ 16 == 0 }

/-- What one call of `Scheduler::EveryFrame` did: whether `func()` was invoked and whether
`this->screen->remove(this)` was called. -/
structure SchedulerEffect where
  fired : Bool
  removeRequested : Bool
deriving DecidableEq

/-- The function `Scheduler::EveryFrame` (lines 476-489). -/
def Scheduler.EveryFrame (s : Scheduler) : Scheduler × SchedulerEffect :=
  if s.countdown = 0 then
    if s.repeatsRemaining > 0 then
      ({ s with repeatsRemaining := s.repeatsRemaining - 1, countdown := s.delay }, ⟨true, false⟩)
    else if !s.infinite then (s, ⟨true, true⟩)
    else (s, ⟨true, false⟩)
  else ({ s with countdown := s.countdown - 1 }, ⟨false, false⟩)

/-- A scheduler on its screen: the screen, the file-level variables, and the scheduler. -/
structure SchedulerState where
  scr : Screen
  g : Statics
  s : Scheduler
deriving DecidableEq

/-- One tick of the running screen `st.scr`, as far as the scheduler object `obj` goes: the
update phase (lines 125-132) calls `EveryFrame` when the object is in `objects` and has
events enabled, a requested removal goes through `Screen::remove`, and the tick ends with
the drain of the removal queue (lines 407-425). -/
def schedulerTick (obj : GameObject) (autoDelete : Bool) (st : SchedulerState) :
    SchedulerState × SchedulerEffect :=
  if st.scr.objects.contains obj.id && !obj.eventsDisabled then
    let r := st.s.EveryFrame
    let afterUpdate :=
      if r.2.removeRequested then st.scr.remove st.g obj autoDelete else (st.scr, st.g)
    let afterDrain := drainRemoveQueue afterUpdate.1 afterUpdate.2
    (⟨afterDrain.1, afterDrain.2, r.1⟩, r.2)
  else
    let afterDrain := drainRemoveQueue st.scr st.g
    (⟨afterDrain.1, afterDrain.2, st.s⟩, ⟨false, false⟩)

/-- The state before tick `t` (ticks are counted from zero). -/
def stateBefore (obj : GameObject) (autoDelete : Bool) (st : SchedulerState) : Nat → SchedulerState
  | 0 => st
  | t + 1 => (schedulerTick obj autoDelete (stateBefore obj autoDelete st t)).1

/-- What the scheduler did in tick `t`. -/
def effectAt (obj : GameObject) (autoDelete : Bool) (st : SchedulerState) (t : Nat) :
    SchedulerEffect :=
  (schedulerTick obj autoDelete (stateBefore obj autoDelete st t)).2

/-- Modelled from the spec: `Screen::add`, which `Screen::schedule` calls and which is not
in `Screen.cpp`, puts an object that is not graphical into the logic collection. This is
the state after `schedule` on the running screen `scr`, at the start of a tick: the new
scheduler `obj` is in `objects` with events enabled, and no removal is pending. -/
def Scheduled (scr : Screen) (g : Statics) (obj : GameObject) : Prop :=
  g.currentScreen = some scr.addr ∧ scr.objects.contains obj.id = true ∧
    obj.eventsDisabled = false ∧ g.removeQueue = []

/-- A running screen at address 1 that holds the scheduler object 7 and a sprite object 3. -/
def sampleScreen : Screen :=
  { addr := 1, objects := [(7, ⟨7, false⟩)], gObjects := [(3, ⟨3, false⟩)], uiObjects := [] }

/-- File-level variables at the start of a tick of `sampleScreen`. -/
def sampleStatics : Statics :=
  { currentScreen := some 1, removeQueue := [], running := true, deleted := [],
    removedFromScreen := [] }

/-- The scheduler object of `sampleScreen`. -/
def sampleSchedulerObject : GameObject := ⟨7, false⟩

/-! ## Collision pass (`Screen::render`, lines 323-343) -/

/-- The id is a key of one of the three collections of the screen. -/
def Screen.registered (scr : Screen) (id : GameObjectID) : Bool :=
  scr.objects.contains id || scr.gObjects.contains id || scr.uiObjects.contains id

/-- The three collections of the screen are disjoint by id. -/
def Screen.DisjointIds (scr : Screen) : Prop :=
  ∀ id, ¬ (scr.objects.contains id = true ∧ scr.gObjects.contains id = true) ∧
    ¬ (scr.objects.contains id = true ∧ scr.uiObjects.contains id = true) ∧
    ¬ (scr.gObjects.contains id = true ∧ scr.uiObjects.contains id = true)

/-- A screen at address 2 that is not the running one, with one object in each collection. -/
def sampleIdleScreen : Screen :=
  { addr := 2, objects := [(7, ⟨7, false⟩)], gObjects := [(3, ⟨3, false⟩)],
    uiObjects := [(5, ⟨5, false⟩)] }


/-- A sequence of calls `remove(obj, autoDelete)` on the screen `scr`, in order. -/
def removeAll : Screen → Statics → List (GameObject × Bool) → Screen × Statics
  | scr, g, [] => (scr, g)
  | scr, g, call :: rest =>
    removeAll (scr.remove g call.1 call.2).1 (scr.remove g call.1 call.2).2 rest

/-- A sequence of calls of `remove` on the running screen during a tick, followed by the
drain of the removal queue at the end of the tick. -/
def removeAllThenDrain (scr : Screen) (g : Statics) (calls : List (GameObject × Bool)) :
    Screen × Statics :=
  drainRemoveQueue (removeAll scr g calls).1 (removeAll scr g calls).2


/-! ## Target rate and pacing (`Screen::render`, lines 89-93 and 452) -/

/-- The value of `currentFPS` after lines 91-93, for the argument `fps` of `render`. -/
def clampFps (fps : Int) : Int :=
  if fps < 1 then 1
  else if fps > 1000 then 1000
  else fps

/-- The file-level variables that the entry of `render` reads and writes. -/
structure LoopStatics where
  renderStarted : Bool
  currentFPS : Int
  currentScreen : Option Nat
  pendingSwitch : Option Nat
deriving DecidableEq

/-- The entry of `Screen::render(fps)` on the screen at address `this` (lines 89-116): the
rate is clamped and stored in `currentFPS` on every call, then a call made while a loop
runs records the switch and returns (lines 106-110), and any other call becomes the
running loop. The result says whether the call goes on to the loop of line 118. -/
def renderEntry (this : Nat) (fps : Int) (g : LoopStatics) : LoopStatics × Bool :=
  let g1 := { g with currentFPS := clampFps fps }
  if g1.renderStarted then ({ g1 with pendingSwitch := some this }, false)
  else ({ g1 with pendingSwitch := none, currentScreen := some this, renderStarted := true }, true)

/-- The minimum duration of a tick in microseconds, `1000000 / currentFPS` of line 452
(division of `int`s, which truncates), for the value of the file-level `currentFPS` at
the time of the wait. -/
def frameBudget (currentFPS : Int) : Int := Int.tdiv 1000000 currentFPS

/-- The condition of the pacing loop of line 452: the loop keeps waiting while the time
elapsed in the tick is below the budget. -/
def pacingWaits (currentFPS : Int) (elapsedMicroseconds : Int) : Bool :=
  decide (elapsedMicroseconds < frameBudget currentFPS)

/-- The pacing loop `while (clock.getElapsedTime().asMicroseconds() < ...) {}` of line 452
over the successive readings of the clock: it ends at the first reading for which the
condition fails, and returns that reading; `none` when the readings run out before. -/
def pacingLoop (currentFPS : Int) : List Int → Option Int
  | [] => none
  | elapsed :: later =>
    if pacingWaits currentFPS elapsed then pacingLoop currentFPS later else some elapsed

/-- File-level variables before the first call of `render`. -/
def sampleLoopStatics : LoopStatics :=
  { renderStarted := false, currentFPS := 0, currentScreen := none, pendingSwitch := none }

/-! ## Viewport follower (`Screen::render`, lines 345-404) -/

/-- The center of the view after lines 350-401, for a main character with a transformable
graphic at `pos` and the center `center` the view had before: the first of the nine branches whose condition holds
sets the center, and the center stays when none holds. -/
def followCharacter (mapWidth mapHeight windowWidth windowHeight : Nat) (pos center : Vec2 K) :
    Vec2 K :=
  let x := pos.1
  let y := pos.2
  let fWidth : K := (mapWidth : K)
  let fHeight : K := (mapHeight : K)
  let halfWidth : K := ((windowWidth / 2 : Nat) : K)
  let halfHeight : K := ((windowHeight / 2 : Nat) : K)
  if x > halfWidth ∧ x < fWidth - halfWidth ∧ y > halfHeight ∧ y < fHeight - halfHeight then pos
  else if x ≥ 0 ∧ x ≤ halfWidth ∧ y ≥ 0 ∧ y ≤ halfHeight then (halfWidth, halfHeight)
  else if x ≥ 0 ∧ x ≤ halfWidth ∧ y ≥ fHeight - halfHeight ∧ y ≤ fHeight then
    (halfWidth, fHeight - halfHeight)
  else if x ≥ fWidth - halfWidth ∧ x ≤ fWidth ∧ y ≥ 0 ∧ y ≤ halfHeight then
    (fWidth - halfWidth, halfHeight)
  else if x ≥ fWidth - halfWidth ∧ x ≤ fWidth ∧ y ≥ fHeight - halfHeight ∧ y ≤ fHeight then
    (fWidth - halfWidth, fHeight - halfHeight)
  else if x > halfWidth ∧ x < fWidth - halfWidth ∧ y ≥ 0 ∧ y ≤ halfHeight then (x, halfHeight)
  else if x > halfWidth ∧ x < fWidth - halfWidth ∧ y ≥ fHeight - halfHeight ∧ y ≤ fHeight then
    (x, fHeight - halfHeight)
  else if x ≥ 0 ∧ x ≤ halfWidth ∧ y > halfHeight ∧ y < fHeight - halfHeight then (halfWidth, y)
  else if x ≥ fWidth - halfWidth ∧ x ≤ fWidth ∧ y > halfHeight
      ∧ y < (mapHeight : K) - halfHeight then
    (fWidth - halfWidth, y)
  else center

/-! ## Event phase of a tick (`Screen::render`, lines 118-141) and `Screen::close` -/

/-- The types of `sf::Event` that the loop of lines 135-228 tells apart. -/
inductive EventType where
  | Closed | Resized | LostFocus | GainedFocus | TextEntered | KeyPressed | KeyReleased
  | MouseWheelMoved | MouseWheelScrolled | MouseButtonPressed | MouseButtonReleased
  | MouseMoved | MouseEntered | MouseLeft | JoystickButtonPressed | JoystickButtonReleased
  | JoystickMoved | JoystickConnected | JoystickDisconnected | TouchBegan | TouchMoved
  | TouchEnded | SensorChanged
deriving DecidableEq

/-- The function `Screen::close` (lines 84-87), on the variable `running`. -/
def close (_running : Bool) : Bool := false

/-- The result of the event phase: whether `render` returned at line 140, the value of
`running` afterwards, and the events that were dispatched to the objects, in order. -/
structure EventPhaseResult where
  returned : Bool
  running : Bool
  dispatched : List EventType
deriving DecidableEq

/-- The loop `while (window.pollEvent(event))` of lines 135-228 over the pending events.
The test of line 137 is made once for every polled event; an event that passes it is
dispatched, and `handlerCloses event` says whether a handler of it calls `close()`. -/
def pollEvents (handlerCloses : EventType → Bool) : Bool → List EventType → EventPhaseResult
  | running, [] => ⟨false, running, []⟩
  | running, event :: rest =>
    if event = EventType.Closed ∨ running = false then ⟨true, running, []⟩
    else
      let r := pollEvents handlerCloses (if handlerCloses event then close running else running) rest
      ⟨r.returned, r.running, event :: r.dispatched⟩

/-- The phases of a tick, in the order of the loop body. -/
inductive Phase where
  | update | events | draw | collisions | viewport | drain | pacing
deriving DecidableEq

/-- The phases one tick of the loop goes through, for the value of `running` at the start
of the event phase and the pending events, and whether `render` returned in the tick:
the `return` of line 140 skips everything after the event phase. -/
def tickPhases (handlerCloses : EventType → Bool) (running : Bool) (events : List EventType) :
    List Phase × Bool :=
  if (pollEvents handlerCloses running events).returned then
    ([Phase.update, Phase.events], true)
  else
    ([Phase.update, Phase.events, Phase.draw, Phase.collisions, Phase.viewport, Phase.drain,
      Phase.pacing], false)


/-! ## Map-bounds clamp (`Screen::render`, lines 250-261) -/

/-- The position of the object after the four edge checks of lines 258-261, which run with
the local `size` of lines 254-255, before the override box is read at line 264; `none` when
the step is skipped (`ignoreObstacles` set, or a graphic that is not transformable). -/
def clampedPosition (fl : K → K) (tMap : Option (TileMap K)) (obj : GraphicalGameObject K) :
    Option (Vec2 K) :=
  if obj.ignoreObstacles then none
  else
    match obj.graphic.getPosition with
    | none => none
    | some p =>
      some (clampToMap fl (mapExtent tMap).1 (mapExtent tMap).2 (naturalSize obj.graphic) p)

/-- A 100 x 100 map without obstacles. -/
def openMap : TileMap K :=
  { width := 10, height := 10, tileSize := (10, 10),
    isObstacle := fun _ => false,
    safeSpawnPositions := [(5, 5)] }

/-- A sprite of natural size 8 x 8 at `(95, 50)` with an override collision box of size
20 x 20 at offset `(0, 0)`. -/
def sampleOverrideObject : GraphicalGameObject K :=
  { id := 4, eventsDisabled := false, ignoreObstacles := false, triggerCollisionEvents := true,
    spawnCollisionsResolved := false, lastPos := (0, 0),
    obstacleCollisionSize := ⟨0, 0, 20, 20⟩,
    graphic := .sprite ⟨(95, 50), 8, 8, ⟨95, 50, 8, 8⟩⟩ }


/-! # Proofs -/

/-! ## Placement correction -/

theorem getPosition_setPosition (g : Graphic K) (p q : Vec2 K) (h : g.getPosition = some p) :
    (g.setPosition q).getPosition = some q := by
  cases g <;> simp_all [Graphic.getPosition, Graphic.setPosition]

theorem naturalSize_setPosition (g : Graphic K) (q : Vec2 K) :
    naturalSize (g.setPosition q) = naturalSize g := by
  cases g <;> rfl

theorem collisionBox_setPosition (obj : GraphicalGameObject K) (q : Vec2 K) :
    collisionBox (obj.setPosition q) = collisionBox obj := by
  simp [collisionBox, GraphicalGameObject.setPosition, naturalSize_setPosition]

theorem collisionBox_leaveAt (obj : GraphicalGameObject K) (q : Vec2 K) (r : Bool) :
    collisionBox (obj.leaveAt q r) = collisionBox obj := by
  simp [collisionBox, GraphicalGameObject.leaveAt, naturalSize_setPosition]

/-- On exit of the loop the flag is set, and the position is either free of obstacles or
the last good position of an object that was resolved before. -/
theorem resolveLoop_exit (fl : K → K) (tMap : TileMap K) (offsets : Vec2 K) (size : Nat × Nat) (lastPos : Vec2 K)
    (rands : List Nat) (resolved : Bool) (p q : Vec2 K) (r : Bool)
    (h : resolveLoop fl tMap offsets size lastPos rands resolved p = some (q, r)) :
    r = true ∧ ((resolved = true ∧ q = lastPos) ∨
      (corners fl offsets size q).any tMap.isObstacle = false) := by
  induction rands generalizing p with
  | nil =>
    unfold resolveLoop at h
    by_cases hc : (corners fl offsets size p).any tMap.isObstacle = true
    · cases resolved with
      | true =>
        simp only [hc, if_true, Option.some.injEq, Prod.mk.injEq] at h
        exact ⟨h.2.symm, Or.inl ⟨rfl, h.1.symm⟩⟩
      | false => simp [hc] at h
    · simp only [hc, Bool.false_eq_true, if_false, Option.some.injEq, Prod.mk.injEq] at h
      refine ⟨h.2.symm, Or.inr ?_⟩
      rw [← h.1]; simpa using hc
  | cons x rest ih =>
    unfold resolveLoop at h
    by_cases hc : (corners fl offsets size p).any tMap.isObstacle = true
    · cases resolved with
      | true =>
        simp only [hc, if_true, Option.some.injEq, Prod.mk.injEq] at h
        exact ⟨h.2.symm, Or.inl ⟨rfl, h.1.symm⟩⟩
      | false =>
        simp only [hc, if_true, Bool.false_eq_true, if_false] at h
        cases hq : tMap.safeSpawnPositions[x % tMap.safeSpawnPositions.length]? with
        | none => simp [hq] at h
        | some q' =>
          simp only [hq] at h
          rcases ih q' h with ⟨h1, h2 | h2⟩
          · exact absurd h2.1 (by simp)
          · exact ⟨h1, Or.inr h2⟩
    · simp only [hc, Bool.false_eq_true, if_false, Option.some.injEq, Prod.mk.injEq] at h
      refine ⟨h.2.symm, Or.inr ?_⟩
      rw [← h.1]; simpa using hc

/-- One completed placement correction establishes `Placed`, from a fresh object as well as
from a placed object that was moved. -/
theorem placementCorrection_placed (fl : K → K) (tMap : TileMap K) (rands : List Nat)
    (obj obj' : GraphicalGameObject K) (p : Vec2 K)
    (hio : obj.ignoreObstacles = false) (htr : obj.graphic.getPosition.isSome = true)
    (hinv : obj.spawnCollisionsResolved = false ∨ Placed fl tMap obj)
    (h : placementCorrection fl (some tMap) rands (obj.setPosition p) = some obj') :
    obj'.ignoreObstacles = false ∧ Placed fl tMap obj' := by
  obtain ⟨p0, hp0⟩ := Option.isSome_iff_exists.mp htr
  have hpos : (obj.setPosition p).graphic.getPosition = some p := by
    simpa [GraphicalGameObject.setPosition] using getPosition_setPosition obj.graphic p0 p hp0
  have hio' : (obj.setPosition p).ignoreObstacles = false := by
    simpa [GraphicalGameObject.setPosition] using hio
  unfold placementCorrection at h
  simp only [hio', Bool.false_eq_true, if_false, hpos] at h
  split at h
  · exact absurd h (by simp)
  · rename_i q resolved hloop
    have hex := resolveLoop_exit _ _ _ _ _ _ _ _ _ _ hloop
    simp only [Option.some.injEq] at h
    subst h
    refine ⟨hio', hex.1, getPosition_setPosition _ p q hpos, ?_⟩
    rw [collisionBox_leaveAt, collisionBox_setPosition]
    show (corners fl (collisionBox obj).1 (collisionBox obj).2 q).any tMap.isObstacle = false
    rcases hex.2 with ⟨hres, hq⟩ | hfree
    · have hres' : obj.spawnCollisionsResolved = true := hres
      rcases hinv with hno | hpl
      · rw [hno] at hres'; exact absurd hres' (by simp)
      · have hq' : q = obj.lastPos := hq
        rw [hq']; exact hpl.2.2
    · rw [collisionBox_setPosition] at hfree; exact hfree

theorem runTicks_placed (fl : K → K) (tMap : TileMap K) (ticks : List (Vec2 K × List Nat))
    (obj obj' : GraphicalGameObject K)
    (hio : obj.ignoreObstacles = false) (hpl : Placed fl tMap obj)
    (h : runTicks fl (some tMap) obj ticks = some obj') : Placed fl tMap obj' := by
  induction ticks generalizing obj with
  | nil =>
    simp only [runTicks, Option.some.injEq] at h
    exact h ▸ hpl
  | cons t rest ih =>
    obtain ⟨p, rands⟩ := t
    simp only [runTicks] at h
    split at h
    · exact absurd h (by simp)
    · rename_i obj1 h1
      have hstep := placementCorrection_placed fl tMap rands obj obj1 p hio
        (by simp [hpl.2.1]) (Or.inr hpl) h1
      exact ih obj1 hstep.1 hstep.2 h

/-- Once the object is resolved the placement loop always ends, after one pass and without
a call of `rand()`: a tick of a resolved object completes. -/
theorem placementCorrection_completes (fl : K → K) (tMap : TileMap K) (rands : List Nat)
    (obj : GraphicalGameObject K) (hres : obj.spawnCollisionsResolved = true) :
    ∃ obj', placementCorrection fl (some tMap) rands obj = some obj' := by
  unfold placementCorrection
  split
  · exact ⟨obj, rfl⟩
  · split
    · exact ⟨obj, rfl⟩
    · have hloop : ∀ p, ∃ q, resolveLoop fl tMap (collisionBox obj).1 (collisionBox obj).2
          obj.lastPos rands true p = some (q, true) := by
        intro p
        unfold resolveLoop
        by_cases hc : (corners fl (collisionBox obj).1 (collisionBox obj).2 p).any
            tMap.isObstacle = true
        · exact ⟨obj.lastPos, by simp [hc]⟩
        · exact ⟨p, by simp [hc]⟩
      simp only [hres]
      obtain ⟨q, hq⟩ := hloop (clampToMap fl (mapExtent (some tMap)).1 (mapExtent (some tMap)).2
        (naturalSize obj.graphic) ‹Vec2 K›)
      rw [hq]
      exact ⟨_, rfl⟩

theorem placementCorrection_collisionBox (fl : K → K) (tMap : Option (TileMap K))
    (rands : List Nat) (obj obj' : GraphicalGameObject K)
    (h : placementCorrection fl tMap rands obj = some obj') :
    collisionBox obj' = collisionBox obj := by
  unfold placementCorrection at h
  split at h
  · simp only [Option.some.injEq] at h
    rw [← h]
  · split at h
    · simp only [Option.some.injEq] at h
      rw [← h]
    · split at h
      · exact absurd h (by simp)
      · simp only [] at h
        split at h
        · exact absurd h (by simp)
        · simp only [Option.some.injEq] at h
          rw [← h, collisionBox_leaveAt]

theorem runTicks_collisionBox (fl : K → K) (tMap : Option (TileMap K))
    (ticks : List (Vec2 K × List Nat)) (obj obj' : GraphicalGameObject K)
    (h : runTicks fl tMap obj ticks = some obj') : collisionBox obj' = collisionBox obj := by
  induction ticks generalizing obj with
  | nil =>
    simp only [runTicks, Option.some.injEq] at h
    rw [← h]
  | cons t rest ih =>
    obtain ⟨p, rands⟩ := t
    simp only [runTicks] at h
    split at h
    · exact absurd h (by simp)
    · rename_i obj1 h1
      rw [ih obj1 h, placementCorrection_collisionBox fl tMap rands _ obj1 h1,
        collisionBox_setPosition]

/-- After a non-empty sequence of completed ticks the object is `Placed`. -/
theorem runTicks_placed_of_fresh (fl : K → K) (tMap : TileMap K)
    (obj obj' : GraphicalGameObject K) (ticks : List (Vec2 K × List Nat))
    (hio : obj.ignoreObstacles = false) (hres : obj.spawnCollisionsResolved = false)
    (htr : obj.graphic.getPosition.isSome = true) (hne : ticks ≠ [])
    (hrun : runTicks fl (some tMap) obj ticks = some obj') : Placed fl tMap obj' := by
  cases ticks with
  | nil => exact absurd rfl hne
  | cons t rest =>
    obtain ⟨p, rands⟩ := t
    simp only [runTicks] at hrun
    split at hrun
    · exact absurd hrun (by simp)
    · rename_i obj1 h1
      have hstep := placementCorrection_placed fl tMap rands obj obj1 p hio htr (Or.inl hres) h1
      exact runTicks_placed fl tMap rest obj1 obj' hstep.1 hstep.2 hrun

/-- The offset and size that lines 263-270 leave, spelled out: the override box with its
width and height truncated when both are positive, and otherwise offset zero with the
texture rectangle of a sprite converted to `unsigned int`, or size zero. -/
theorem collisionBox_eq (obj : GraphicalGameObject K) (l t : K) (w h : Nat)
    (hbox :
      (0 < obj.obstacleCollisionSize.width ∧ 0 < obj.obstacleCollisionSize.height ∧
        l = obj.obstacleCollisionSize.left ∧ t = obj.obstacleCollisionSize.top ∧
        w = Int.toNat ⌊obj.obstacleCollisionSize.width⌋ % 2 ^ 32 ∧
        h = Int.toNat ⌊obj.obstacleCollisionSize.height⌋ % 2 ^ 32) ∨
      (¬ (0 < obj.obstacleCollisionSize.width ∧ 0 < obj.obstacleCollisionSize.height) ∧
        l = 0 ∧ t = 0 ∧
        ((∃ s, obj.graphic = Graphic.sprite s ∧ w = (s.textureRectWidth % 2 ^ 32).toNat ∧
            h = (s.textureRectHeight % 2 ^ 32).toNat) ∨
          ((∀ s, obj.graphic ≠ Graphic.sprite s) ∧ w = 0 ∧ h = 0)))) :
    collisionBox obj = ((l, t), (w, h)) := by
  unfold collisionBox
  rcases hbox with ⟨hw, hh, hl, ht, hw', hh'⟩ | ⟨hno, hl, ht, hnat⟩
  · rw [if_pos ⟨hw, hh⟩, hl, ht, hw', hh']
    rfl
  · rw [if_neg hno, hl, ht]
    rcases hnat with ⟨s, hs, hw', hh'⟩ | ⟨hs, hw', hh'⟩
    · rw [hs, hw', hh']
      rfl
    · rw [hw', hh']
      cases hg : obj.graphic with
      | sprite s => exact absurd hg (hs s)
      | transformable q => rfl
      | drawable => rfl

/-- A whole-number width or height below `2 ^ 32` is not changed by the truncation of
lines 268-269. -/
theorem truncation_whole_number (n : Nat) (hn : n < 2 ^ 32) :
    Int.toNat ⌊(n : K)⌋ % 2 ^ 32 = n := by
  rw [Int.floor_natCast, Int.toNat_ofNat, Nat.mod_eq_of_lt hn]

/-- C1 (counterexample): a sprite with an override collision box of size 1.5 x 1.5 is put
at `(40, 10)` on a map with an obstacle from `x = 41.25` on. The placement correction
completes and leaves the object at `(40, 10)`, because it tests the box truncated to
1 x 1, while the far corner `(41.5, 11.5)` of the override box is on the obstacle. -/
theorem placement_leaves_fractional_corner_on_obstacle :
    runTicks id (some fractionalBoxMap) fractionalBoxObject [((40, 10), [])] =
      some fractionalBoxObjectAfter ∧
    fractionalBoxObjectAfter.graphic.getPosition = some (40, 10) ∧
    fractionalBoxObjectAfter.obstacleCollisionSize = ⟨0, 0, 3 / 2, 3 / 2⟩ ∧
    fractionalBoxMap.isObstacle (40 + 0 + 3 / 2, 10 + 0 + 3 / 2) = true := by
  have hfloor : ⌊(3 / 2 : ℚ)⌋ = 1 := by
    rw [Int.floor_eq_iff]
    constructor <;> norm_num
  have htrunc : floatToUnsigned (3 / 2 : ℚ) = 1 := by
    unfold floatToUnsigned
    rw [hfloor]
    rfl
  have hbox : collisionBox (fractionalBoxObject.setPosition (40, 10)) = ((0, 0), (1, 1)) := by
    have h1 : (0 : ℚ) < 3 / 2 := by norm_num
    simp only [collisionBox, GraphicalGameObject.setPosition, fractionalBoxObject, h1,
      and_self, if_true, gt_iff_lt, htrunc]
  have hclamp : clampToMap id 100 100 (1, 1) ((40, 10) : Vec2 ℚ) = (40, 10) := by
    simp only [clampToMap, id]
    norm_num
  have hloop : resolveLoop id fractionalBoxMap (0, 0) (1, 1) (0, 0) [] false
      ((40, 10) : Vec2 ℚ) = some ((40, 10), true) := by
    unfold resolveLoop
    simp only [corners, fractionalBoxMap, id, List.any_cons, List.any_nil]
    norm_num
  refine ⟨?_, rfl, rfl, ?_⟩
  · have hstep : placementCorrection id (some fractionalBoxMap) []
        (fractionalBoxObject.setPosition (40, 10)) = some fractionalBoxObjectAfter := by
      unfold placementCorrection
      have hio : (fractionalBoxObject.setPosition (40, 10)).ignoreObstacles = false := rfl
      have hpos : (fractionalBoxObject.setPosition (40, 10)).graphic.getPosition =
          some (40, 10) := rfl
      have hext : mapExtent (some fractionalBoxMap) = (100, 100) := by
        simp [mapExtent, fractionalBoxMap, mulU32]
      have hnat : naturalSize (fractionalBoxObject.setPosition (40, 10)).graphic = (1, 1) := by
        simp [naturalSize, GraphicalGameObject.setPosition, Graphic.setPosition,
          fractionalBoxObject, toUnsigned]
      have hlast : (fractionalBoxObject.setPosition (40, 10)).lastPos = (0, 0) := rfl
      have hres : (fractionalBoxObject.setPosition (40, 10)).spawnCollisionsResolved = false :=
        rfl
      simp only [hio, Bool.false_eq_true, if_false, hpos, hext, hnat, hbox, hclamp, hlast, hres,
        hloop]
      simp only [GraphicalGameObject.leaveAt, GraphicalGameObject.setPosition,
        Graphic.setPosition, fractionalBoxObject, fractionalBoxObjectAfter]
      norm_num
    simp only [runTicks, hstep]
  · simp only [fractionalBoxMap]
    norm_num

/-- C1 (amended): let a world-graphical object with a transformable graphic start with
`ignoreObstacles = false` and `spawnCollisionsResolved = false`, and let `(l, t)` and
`(w, h)` be the offset and size of its collision box: the override offset with the
override width and height truncated to whole numbers when both are positive, and
otherwise offset zero with the natural size (the texture rectangle of a sprite, zero for
another graphic). After every non-empty sequence of ticks in which the object is moved
arbitrarily before each tick and every placement correction completes, the object stands
at a position `(x, y)`, and none of the four corner points of lines 274-279, the binary32
sums of position, offset and size, satisfies the obstacle predicate of the tile map. In
exact arithmetic these are the corners `(x + l, y + t)`, `(x + l + w, y + t)`,
`(x + l, y + t + h)` and `(x + l + w, y + t + h)` of the box. -/
theorem placement_keeps_off_obstacles (fl : K → K) (tMap : TileMap K)
    (obj obj' : GraphicalGameObject K) (ticks : List (Vec2 K × List Nat))
    (hio : obj.ignoreObstacles = false) (hres : obj.spawnCollisionsResolved = false)
    (htr : obj.graphic.getPosition.isSome = true) (hne : ticks ≠ [])
    (hrun : runTicks fl (some tMap) obj ticks = some obj')
    (l t : K) (w h : Nat)
    (hbox :
      (0 < obj.obstacleCollisionSize.width ∧ 0 < obj.obstacleCollisionSize.height ∧
        l = obj.obstacleCollisionSize.left ∧ t = obj.obstacleCollisionSize.top ∧
        w = Int.toNat ⌊obj.obstacleCollisionSize.width⌋ % 2 ^ 32 ∧
        h = Int.toNat ⌊obj.obstacleCollisionSize.height⌋ % 2 ^ 32) ∨
      (¬ (0 < obj.obstacleCollisionSize.width ∧ 0 < obj.obstacleCollisionSize.height) ∧
        l = 0 ∧ t = 0 ∧
        ((∃ s, obj.graphic = Graphic.sprite s ∧ w = (s.textureRectWidth % 2 ^ 32).toNat ∧
            h = (s.textureRectHeight % 2 ^ 32).toNat) ∨
          ((∀ s, obj.graphic ≠ Graphic.sprite s) ∧ w = 0 ∧ h = 0)))) :
    ∃ x y, obj'.graphic.getPosition = some (x, y) ∧
      (tMap.isObstacle (fl (x + l), fl (y + t)) = false ∧
        tMap.isObstacle (fl (x + fl (fl (w : K) + l)), fl (y + t)) = false ∧
        tMap.isObstacle (fl (x + l), fl (y + fl (fl (h : K) + t))) = false ∧
        tMap.isObstacle (fl (x + fl (fl (w : K) + l)), fl (y + fl (fl (h : K) + t))) = false) ∧
      ((∀ v, fl v = v) →
        tMap.isObstacle (x + l, y + t) = false ∧
        tMap.isObstacle (x + l + (w : K), y + t) = false ∧
        tMap.isObstacle (x + l, y + t + (h : K)) = false ∧
        tMap.isObstacle (x + l + (w : K), y + t + (h : K)) = false) := by
  have hpl := runTicks_placed_of_fresh fl tMap obj obj' ticks hio hres htr hne hrun
  have hb : collisionBox obj' = ((l, t), (w, h)) := by
    rw [runTicks_collisionBox fl (some tMap) ticks obj obj' hrun]
    exact collisionBox_eq obj l t w h hbox
  have hfree := hpl.2.2
  rw [hb] at hfree
  simp only [corners, List.any_cons, List.any_nil, Bool.or_false, Bool.or_eq_false_iff] at hfree
  obtain ⟨h1, h2, h3, h4⟩ := hfree
  refine ⟨obj'.lastPos.1, obj'.lastPos.2, hpl.2.1, ⟨h1, h2, h3, h4⟩, ?_⟩
  intro hfl
  simp only [hfl] at h1 h2 h3 h4
  have ex : obj'.lastPos.1 + ((w : K) + l) = obj'.lastPos.1 + l + (w : K) := by ring
  have ey : obj'.lastPos.2 + ((h : K) + t) = obj'.lastPos.2 + t + (h : K) := by ring
  rw [ex] at h2 h4
  rw [ey] at h3 h4
  exact ⟨h1, h2, h3, h4⟩

/-- Witness of C1 (amended) on integer coordinates with exact arithmetic: the sample
object of natural size 8 x 8, put on the obstacle at `(60, 60)` and then at `(70, 3)`, is
teleported to the safe spawn point in the first tick and snapped back to it in the
second. -/
theorem placement_keeps_off_obstacles_witness :
    runTicks id (some (sampleMap : TileMap ℤ)) sampleObject sampleTicks = some sampleObjectAfter ∧
    ∃ x y, (sampleObjectAfter : GraphicalGameObject ℤ).graphic.getPosition = some (x, y) ∧
      ((sampleMap : TileMap ℤ).isObstacle (id (x + 0), id (y + 0)) = false ∧
        (sampleMap : TileMap ℤ).isObstacle (id (x + id (id ((8 : Nat) : ℤ) + 0)), id (y + 0)) =
          false ∧
        (sampleMap : TileMap ℤ).isObstacle (id (x + 0), id (y + id (id ((8 : Nat) : ℤ) + 0))) =
          false ∧
        (sampleMap : TileMap ℤ).isObstacle
          (id (x + id (id ((8 : Nat) : ℤ) + 0)), id (y + id (id ((8 : Nat) : ℤ) + 0))) = false) ∧
      ((∀ v : ℤ, id v = v) →
        (sampleMap : TileMap ℤ).isObstacle (x + 0, y + 0) = false ∧
        (sampleMap : TileMap ℤ).isObstacle (x + 0 + ((8 : Nat) : ℤ), y + 0) = false ∧
        (sampleMap : TileMap ℤ).isObstacle (x + 0, y + 0 + ((8 : Nat) : ℤ)) = false ∧
        (sampleMap : TileMap ℤ).isObstacle (x + 0 + ((8 : Nat) : ℤ), y + 0 + ((8 : Nat) : ℤ)) =
          false) :=
  ⟨by decide,
   placement_keeps_off_obstacles id sampleMap sampleObject sampleObjectAfter sampleTicks
     rfl rfl rfl (by decide) (by decide) 0 0 8 8
     (Or.inr ⟨by decide, rfl, rfl, Or.inl ⟨_, rfl, by decide, by decide⟩⟩)⟩

/-! ## Registry -/

theorem contains_erase_self (m : GameObjectMap) (id : GameObjectID) :
    (m.erase id).contains id = false := by
  simp [GameObjectMap.contains, GameObjectMap.erase, List.any_eq_false]

theorem drainRemoveQueue_nil (scr : Screen) (g : Statics) (h : g.removeQueue = []) :
    drainRemoveQueue scr g = (scr, g) := by
  cases g
  simp_all [drainRemoveQueue, drainEntries]

/-! ## Scheduler -/

theorem schedulerTick_countdown (obj : GameObject) (autoDelete : Bool) (st : SchedulerState)
    (hreg : st.scr.objects.contains obj.id = true) (hen : obj.eventsDisabled = false)
    (hq : st.g.removeQueue = []) (hc : st.s.countdown ≠ 0) :
    schedulerTick obj autoDelete st =
      (⟨st.scr, st.g, { st.s with countdown := st.s.countdown - 1 }⟩, ⟨false, false⟩) := by
  simp [schedulerTick, hreg, hen, Scheduler.EveryFrame, hc, drainRemoveQueue_nil _ _ hq]

theorem schedulerTick_repeat (obj : GameObject) (autoDelete : Bool) (st : SchedulerState)
    (hreg : st.scr.objects.contains obj.id = true) (hen : obj.eventsDisabled = false)
    (hq : st.g.removeQueue = []) (hc : st.s.countdown = 0) (hr : 0 < st.s.repeatsRemaining) :
    schedulerTick obj autoDelete st =
      (⟨st.scr, st.g, { st.s with repeatsRemaining := st.s.repeatsRemaining - 1,
                                  countdown := st.s.delay }⟩, ⟨true, false⟩) := by
  simp [schedulerTick, hreg, hen, Scheduler.EveryFrame, hc, hr, drainRemoveQueue_nil _ _ hq]

theorem schedulerTick_infinite (obj : GameObject) (autoDelete : Bool) (st : SchedulerState)
    (hreg : st.scr.objects.contains obj.id = true) (hen : obj.eventsDisabled = false)
    (hq : st.g.removeQueue = []) (hc : st.s.countdown = 0) (hr : st.s.repeatsRemaining = 0)
    (hinf : st.s.infinite = true) :
    schedulerTick obj autoDelete st = (st, ⟨true, false⟩) := by
  simp [schedulerTick, hreg, hen, Scheduler.EveryFrame, hc, hr, hinf,
    drainRemoveQueue_nil _ _ hq]

theorem schedulerTick_last (obj : GameObject) (autoDelete : Bool) (st : SchedulerState)
    (hcur : st.g.currentScreen = some st.scr.addr)
    (hreg : st.scr.objects.contains obj.id = true) (hen : obj.eventsDisabled = false)
    (hq : st.g.removeQueue = []) (hc : st.s.countdown = 0) (hr : st.s.repeatsRemaining = 0)
    (hinf : st.s.infinite = false) :
    (schedulerTick obj autoDelete st).2 = ⟨true, true⟩ ∧
    (schedulerTick obj autoDelete st).1.scr.objects.contains obj.id = false ∧
    (schedulerTick obj autoDelete st).1.g.removeQueue = [] := by
  simp [schedulerTick, hreg, hen, Scheduler.EveryFrame, hc, hr, hinf, Screen.remove, hcur, hq,
    drainRemoveQueue, drainEntries, drainEntry, Screen.eraseFirst, contains_erase_self]

theorem schedulerTick_gone (obj : GameObject) (autoDelete : Bool) (st : SchedulerState)
    (hreg : st.scr.objects.contains obj.id = false) (hq : st.g.removeQueue = []) :
    schedulerTick obj autoDelete st = (st, ⟨false, false⟩) := by
  simp [schedulerTick, hreg, drainRemoveQueue_nil _ _ hq]

theorem Scheduler.new_finite (d k : Nat) (hd : d < 2 ^ 64) (hk1 : 1 ≤ k) (hk2 : k ≤ 65535) :
    Scheduler.new d k = ⟨d, d, k, false⟩ := by
  have h1 : d % 2 ^ 64 = d := Nat.mod_eq_of_lt hd
  have h2 : k % 2 ^ 16 = k := Nat.mod_eq_of_lt (by omega)
  have h3 : (k == 0) = false := by
    rw [beq_eq_false_iff_ne]; omega
  simp only [Scheduler.new, h1, h2, h3]

/-- While the finite scheduler is registered, the state before tick `q * (d + 1) + r` has
the countdown `d - r` and `k - q` repeats left; screen and queue are as at the start. -/
theorem finite_stateBefore (obj : GameObject) (autoDelete : Bool) (scr : Screen) (g : Statics)
    (d k : Nat) (hs : Scheduled scr g obj) :
    ∀ t q r : Nat, t = q * (d + 1) + r → r ≤ d → q ≤ k →
      stateBefore obj autoDelete ⟨scr, g, ⟨d, d, k, false⟩⟩ t =
        ⟨scr, g, ⟨d, d - r, k - q, false⟩⟩ := by
  intro t
  induction t with
  | zero =>
    intro q r ht hr hq
    have hr0 : r = 0 := by omega
    have hq0 : q = 0 := by
      rcases Nat.eq_zero_or_pos q with h | h
      · exact h
      · have : 1 * (d + 1) ≤ q * (d + 1) := Nat.mul_le_mul_right _ h
        omega
    subst hr0; subst hq0
    simp [stateBefore]
  | succ t ih =>
    intro q r ht hr hq
    rcases Nat.eq_zero_or_pos r with hr0 | hrpos
    · subst hr0
      obtain ⟨q', rfl⟩ : ∃ q', q = q' + 1 := by
        rcases q with _ | q'
        · simp at ht
        · exact ⟨q', rfl⟩
      have ht' : t = q' * (d + 1) + d := by
        have : (q' + 1) * (d + 1) = q' * (d + 1) + (d + 1) := Nat.succ_mul _ _
        omega
      have hst := ih q' d ht' (Nat.le_refl d) (by omega)
      simp only [stateBefore, hst]
      rw [schedulerTick_repeat obj autoDelete _ hs.2.1 hs.2.2.1 hs.2.2.2 (by simp)
        (by simp; omega)]
      simp only [Nat.sub_self, Nat.sub_zero]
      congr 2
    · have ht' : t = q * (d + 1) + (r - 1) := by omega
      have hst := ih q (r - 1) ht' (by omega) hq
      simp only [stateBefore, hst]
      rw [schedulerTick_countdown obj autoDelete _ hs.2.1 hs.2.2.1 hs.2.2.2 (by simp; omega)]
      simp only
      congr 2
      omega

/-- What the finite scheduler does in tick `q * (d + 1) + r` while it is registered. -/
theorem finite_effectAt (obj : GameObject) (autoDelete : Bool) (scr : Screen) (g : Statics)
    (d k : Nat) (hs : Scheduled scr g obj) (q r : Nat) (hr : r ≤ d) (hq : q ≤ k) :
    effectAt obj autoDelete ⟨scr, g, ⟨d, d, k, false⟩⟩ (q * (d + 1) + r) =
      ⟨decide (r = d), decide (r = d ∧ q = k)⟩ := by
  have hst := finite_stateBefore obj autoDelete scr g d k hs _ q r rfl hr hq
  simp only [effectAt, hst]
  by_cases hrd : r = d
  · subst hrd
    by_cases hqk : q = k
    · subst hqk
      have h := schedulerTick_last obj autoDelete ⟨scr, g, ⟨r, r - r, q - q, false⟩⟩ hs.1
        hs.2.1 hs.2.2.1 hs.2.2.2 (by simp) (by simp) rfl
      rw [h.1]
      simp
    · rw [schedulerTick_repeat obj autoDelete _ hs.2.1 hs.2.2.1 hs.2.2.2 (by simp)
        (by simp; omega)]
      simp [hqk]
  · rw [schedulerTick_countdown obj autoDelete _ hs.2.1 hs.2.2.1 hs.2.2.2 (by simp; omega)]
    simp [hrd]

/-- After the tick of the last invocation the scheduler is out of the logic collection and
stays out, with an empty queue. -/
theorem finite_gone (obj : GameObject) (autoDelete : Bool) (scr : Screen) (g : Statics)
    (d k : Nat) (hs : Scheduled scr g obj) (n : Nat) :
    (stateBefore obj autoDelete ⟨scr, g, ⟨d, d, k, false⟩⟩
        ((k + 1) * (d + 1) + n)).scr.objects.contains obj.id = false ∧
    (stateBefore obj autoDelete ⟨scr, g, ⟨d, d, k, false⟩⟩
        ((k + 1) * (d + 1) + n)).g.removeQueue = [] := by
  induction n with
  | zero =>
    have ht : (k + 1) * (d + 1) + 0 = (k * (d + 1) + d) + 1 := by
      have : (k + 1) * (d + 1) = k * (d + 1) + (d + 1) := Nat.succ_mul _ _
      omega
    rw [ht]
    have hst := finite_stateBefore obj autoDelete scr g d k hs _ k d rfl (Nat.le_refl d)
      (Nat.le_refl k)
    simp only [stateBefore, hst]
    have h := schedulerTick_last obj autoDelete ⟨scr, g, ⟨d, d - d, k - k, false⟩⟩ hs.1
      hs.2.1 hs.2.2.1 hs.2.2.2 (by simp) (by simp) rfl
    exact h.2
  | succ n ih =>
    have ht : (k + 1) * (d + 1) + (n + 1) = ((k + 1) * (d + 1) + n) + 1 := by omega
    rw [ht]
    simp only [stateBefore]
    rw [schedulerTick_gone obj autoDelete _ ih.1 ih.2]
    exact ih

theorem finite_effectAt_gone (obj : GameObject) (autoDelete : Bool) (scr : Screen) (g : Statics)
    (d k : Nat) (hs : Scheduled scr g obj) (t : Nat) (ht : (k + 1) * (d + 1) ≤ t) :
    effectAt obj autoDelete ⟨scr, g, ⟨d, d, k, false⟩⟩ t = ⟨false, false⟩ := by
  obtain ⟨n, rfl⟩ := Nat.exists_eq_add_of_le ht
  have h := finite_gone obj autoDelete scr g d k hs n
  simp only [effectAt]
  rw [schedulerTick_gone obj autoDelete _ h.1 h.2]

/-- C2: a scheduler created with a delay `d` and a repeat count `k` between 1 and 65535,
registered on the running screen and ticked once per frame, invokes its callback exactly in
the ticks `j * (d + 1) + d` for `j = 0, ..., k` (ticks counted from zero), which are `k + 1`
invocations in total over any run that is long enough, and it calls `remove(this)` in the
tick of the last of them, `k * (d + 1) + d`, and in no other tick. -/
theorem finite_scheduler (obj : GameObject) (autoDelete : Bool) (scr : Screen) (g : Statics)
    (d k : Nat) (hd : d < 2 ^ 64) (hk1 : 1 ≤ k) (hk2 : k ≤ 65535) (hs : Scheduled scr g obj) :
    (∀ t, (effectAt obj autoDelete ⟨scr, g, Scheduler.new d k⟩ t).fired = true ↔
        ∃ j, j ≤ k ∧ t = j * (d + 1) + d) ∧
    (∀ t, (effectAt obj autoDelete ⟨scr, g, Scheduler.new d k⟩ t).removeRequested = true ↔
        t = k * (d + 1) + d) ∧
    (∀ n, (k + 1) * (d + 1) ≤ n →
        ((Finset.range n).filter
          (fun t => (effectAt obj autoDelete ⟨scr, g, Scheduler.new d k⟩ t).fired = true)).card
          = k + 1) := by
  rw [Scheduler.new_finite d k hd hk1 hk2]
  have hsplit : ∀ t, t < (k + 1) * (d + 1) →
      ∃ q r, q ≤ k ∧ r ≤ d ∧ t = q * (d + 1) + r := by
    intro t ht
    refine ⟨t / (d + 1), t % (d + 1), ?_, ?_, (Nat.div_add_mod' t (d + 1)).symm⟩
    · have : t / (d + 1) < k + 1 := (Nat.div_lt_iff_lt_mul (Nat.succ_pos d)).mpr ht
      omega
    · have : t % (d + 1) < d + 1 := Nat.mod_lt _ (Nat.succ_pos d)
      omega
  have hfired : ∀ t, (effectAt obj autoDelete ⟨scr, g, ⟨d, d, k, false⟩⟩ t).fired = true ↔
      ∃ j, j ≤ k ∧ t = j * (d + 1) + d := by
    intro t
    constructor
    · intro h
      rcases Nat.lt_or_ge t ((k + 1) * (d + 1)) with hlt | hge
      · obtain ⟨q, r, hq, hr, rfl⟩ := hsplit t hlt
        rw [finite_effectAt obj autoDelete scr g d k hs q r hr hq] at h
        have hrd : r = d := by simpa using h
        exact ⟨q, hq, by rw [hrd]⟩
      · rw [finite_effectAt_gone obj autoDelete scr g d k hs t hge] at h
        exact absurd h (by simp)
    · rintro ⟨j, hj, rfl⟩
      rw [finite_effectAt obj autoDelete scr g d k hs j d (Nat.le_refl d) hj]
      simp
  refine ⟨hfired, ?_, ?_⟩
  · intro t
    constructor
    · intro h
      rcases Nat.lt_or_ge t ((k + 1) * (d + 1)) with hlt | hge
      · obtain ⟨q, r, hq, hr, rfl⟩ := hsplit t hlt
        rw [finite_effectAt obj autoDelete scr g d k hs q r hr hq] at h
        have hrd : r = d ∧ q = k := by simpa using h
        rw [hrd.1, hrd.2]
      · rw [finite_effectAt_gone obj autoDelete scr g d k hs t hge] at h
        exact absurd h (by simp)
    · rintro rfl
      rw [finite_effectAt obj autoDelete scr g d k hs k d (Nat.le_refl d) (Nat.le_refl k)]
      simp
  · intro n hn
    have himg : (Finset.range n).filter
        (fun t => (effectAt obj autoDelete ⟨scr, g, ⟨d, d, k, false⟩⟩ t).fired = true) =
        (Finset.range (k + 1)).image (fun j => j * (d + 1) + d) := by
      ext t
      simp only [Finset.mem_filter, Finset.mem_range, Finset.mem_image, hfired]
      constructor
      · rintro ⟨_, j, hj, rfl⟩
        exact ⟨j, by omega, rfl⟩
      · rintro ⟨j, hj, rfl⟩
        refine ⟨?_, j, by omega, rfl⟩
        have h1 : j * (d + 1) ≤ k * (d + 1) := Nat.mul_le_mul_right _ (by omega)
        have h2 : (k + 1) * (d + 1) = k * (d + 1) + (d + 1) := Nat.succ_mul _ _
        omega
    rw [himg, Finset.card_image_of_injective, Finset.card_range]
    intro a b hab
    have hab' : a * (d + 1) = b * (d + 1) := by
      have : a * (d + 1) + d = b * (d + 1) + d := hab
      omega
    exact Nat.eq_of_mul_eq_mul_right (Nat.succ_pos d) hab'

/-- Witness of C2: delay 2 and repeat count 1 on the sample screen. -/
theorem finite_scheduler_witness :
    (∀ t, (effectAt sampleSchedulerObject false
        ⟨sampleScreen, sampleStatics, Scheduler.new 2 1⟩ t).fired = true ↔
        ∃ j, j ≤ 1 ∧ t = j * (2 + 1) + 2) ∧
    (∀ t, (effectAt sampleSchedulerObject false
        ⟨sampleScreen, sampleStatics, Scheduler.new 2 1⟩ t).removeRequested = true ↔
        t = 1 * (2 + 1) + 2) ∧
    (∀ n, (1 + 1) * (2 + 1) ≤ n →
        ((Finset.range n).filter
          (fun t => (effectAt sampleSchedulerObject false
            ⟨sampleScreen, sampleStatics, Scheduler.new 2 1⟩ t).fired = true)).card = 1 + 1) :=
  finite_scheduler sampleSchedulerObject false sampleScreen sampleStatics 2 1
    (by decide) (by decide) (by decide) ⟨rfl, rfl, rfl, rfl⟩

theorem Scheduler.new_infinite (d : Nat) (hd : d < 2 ^ 64) :
    Scheduler.new d 0 = ⟨d, d, 0, true⟩ := by
  have h1 : d % 2 ^ 64 = d := Nat.mod_eq_of_lt hd
  simp only [Scheduler.new, h1]
  rfl

/-- The scheduler with repeat count zero counts down once and then stays at zero: the
countdown before tick `t` is `d - t` (zero from tick `d` on), and nothing else changes. -/
theorem infinite_stateBefore (obj : GameObject) (autoDelete : Bool) (scr : Screen) (g : Statics)
    (d : Nat) (hs : Scheduled scr g obj) (t : Nat) :
    stateBefore obj autoDelete ⟨scr, g, ⟨d, d, 0, true⟩⟩ t = ⟨scr, g, ⟨d, d - t, 0, true⟩⟩ := by
  induction t with
  | zero => simp [stateBefore]
  | succ t ih =>
    simp only [stateBefore, ih]
    by_cases h : d - t = 0
    · rw [schedulerTick_infinite obj autoDelete _ hs.2.1 hs.2.2.1 hs.2.2.2 h rfl rfl]
      have h' : d - (t + 1) = d - t := by omega
      rw [h']
    · rw [schedulerTick_countdown obj autoDelete _ hs.2.1 hs.2.2.1 hs.2.2.2 h]
      have h' : d - (t + 1) = d - t - 1 := by omega
      rw [h']

/-- The scheduler with repeat count zero never asks for its removal, and it invokes its
callback in every tick from tick `d` on: after the first invocation the countdown is not
reset, so consecutive invocations are one tick apart whatever the delay is. -/
theorem infinite_effectAt (obj : GameObject) (autoDelete : Bool) (scr : Screen) (g : Statics)
    (d : Nat) (hd : d < 2 ^ 64) (hs : Scheduled scr g obj) (t : Nat) :
    effectAt obj autoDelete ⟨scr, g, Scheduler.new d 0⟩ t = ⟨decide (d ≤ t), false⟩ := by
  rw [Scheduler.new_infinite d hd]
  simp only [effectAt, infinite_stateBefore obj autoDelete scr g d hs t]
  by_cases h : d - t = 0
  · rw [schedulerTick_infinite obj autoDelete _ hs.2.1 hs.2.2.1 hs.2.2.2 h rfl rfl]
    have : d ≤ t := by omega
    simp [this]
  · rw [schedulerTick_countdown obj autoDelete _ hs.2.1 hs.2.2.1 hs.2.2.2 h]
    have : ¬ d ≤ t := by omega
    simp [this]

/-- C3 (the code at the failing input): with delay 3 and repeat count 0 on the sample
screen the callback is invoked in the ticks 3, 4, 5, 6 and 7 of the first eight ticks, so
consecutive invocations are one tick apart and not three, and the countdown before the
ticks 4 and 5 is zero: it is not reset after the invocation; no removal is requested. -/
theorem infinite_scheduler_fires_every_tick :
    (List.range 8).map (fun t => effectAt sampleSchedulerObject false
        ⟨sampleScreen, sampleStatics, Scheduler.new 3 0⟩ t) =
      [⟨false, false⟩, ⟨false, false⟩, ⟨false, false⟩, ⟨true, false⟩, ⟨true, false⟩,
       ⟨true, false⟩, ⟨true, false⟩, ⟨true, false⟩] ∧
    (stateBefore sampleSchedulerObject false
        ⟨sampleScreen, sampleStatics, Scheduler.new 3 0⟩ 4).s.countdown = 0 ∧
    (stateBefore sampleSchedulerObject false
        ⟨sampleScreen, sampleStatics, Scheduler.new 3 0⟩ 5).s.countdown = 0 := by
  decide

/-! ## Collision pass -/

theorem contains_erase (m : GameObjectMap) (id id' : GameObjectID) :
    (m.erase id).contains id' = (m.contains id' && (id' != id)) := by
  rw [Bool.eq_iff_iff]
  simp only [GameObjectMap.contains, GameObjectMap.erase, List.any_eq_true, List.mem_filter,
    Bool.and_eq_true, beq_iff_eq, bne_iff_ne]
  constructor
  · rintro ⟨kv, ⟨hm, hne⟩, he⟩
    exact ⟨⟨kv, hm, he⟩, he ▸ hne⟩
  · rintro ⟨⟨kv, hm, he⟩, hne⟩
    exact ⟨kv, ⟨hm, he ▸ hne⟩, he⟩

theorem erase_of_not_contains (m : GameObjectMap) (id : GameObjectID)
    (h : m.contains id = false) : m.erase id = m := by
  simp only [GameObjectMap.contains, List.any_eq_false, beq_iff_eq] at h
  simp only [GameObjectMap.erase, List.filter_eq_self, bne_iff_ne]
  exact fun kv hkv => h kv hkv

/-- C5: `remove(obj, autoDelete)` on the running screen leaves the screen with its three
collections unchanged and appends the one entry `(obj, autoDelete)` to the tail of the
removal queue; on any other screen it leaves the queue unchanged and erases the id of `obj`
at once from the first collection that holds it (for collections disjoint by id, the one
that holds it), leaving the other collections and, when no collection holds the id, the
whole screen unchanged; after the erasure that collection does not hold the id. -/
theorem remove_deferred_or_immediate (scr : Screen) (g : Statics) (obj : GameObject)
    (autoDelete : Bool) :
    (g.currentScreen = some scr.addr →
      (scr.remove g obj autoDelete).1 = scr ∧
      (scr.remove g obj autoDelete).2.removeQueue = g.removeQueue ++ [(obj, autoDelete)]) ∧
    (g.currentScreen ≠ some scr.addr →
      (scr.remove g obj autoDelete).2.removeQueue = g.removeQueue ∧
      (scr.objects.contains obj.id = true →
        (scr.remove g obj autoDelete).1 = { scr with objects := scr.objects.erase obj.id } ∧
        (scr.objects.erase obj.id).contains obj.id = false) ∧
      (scr.objects.contains obj.id = false → scr.gObjects.contains obj.id = true →
        (scr.remove g obj autoDelete).1 = { scr with gObjects := scr.gObjects.erase obj.id } ∧
        (scr.gObjects.erase obj.id).contains obj.id = false) ∧
      (scr.objects.contains obj.id = false → scr.gObjects.contains obj.id = false →
        scr.uiObjects.contains obj.id = true →
        (scr.remove g obj autoDelete).1 = { scr with uiObjects := scr.uiObjects.erase obj.id } ∧
        (scr.uiObjects.erase obj.id).contains obj.id = false) ∧
      (scr.registered obj.id = false → (scr.remove g obj autoDelete).1 = scr)) := by
  constructor
  · intro hcur
    simp [Screen.remove, hcur]
  · intro hcur
    have hcur' : some scr.addr ≠ g.currentScreen := fun h => hcur h.symm
    refine ⟨?_, ?_, ?_, ?_, ?_⟩
    · simp only [Screen.remove, hcur', ne_eq, not_false_eq_true, if_true]
      split <;> rfl
    · intro h1
      simp [Screen.remove, hcur', Screen.eraseFirst, h1, contains_erase_self]
    · intro h1 h2
      simp [Screen.remove, hcur', Screen.eraseFirst, h1, h2, contains_erase_self]
    · intro h1 h2 h3
      simp [Screen.remove, hcur', Screen.eraseFirst, h1, h2, h3, contains_erase_self]
    · intro h
      simp only [Screen.registered, Bool.or_eq_false_iff] at h
      simp [Screen.remove, hcur', Screen.eraseFirst, h.1.1, h.1.2, h.2]

/-- Witness of C5: removing object 3 from the running sample screen queues it; removing it
from the idle sample screen erases it from the world-graphical collection at once. -/
theorem remove_deferred_or_immediate_witness :
    ((sampleScreen.remove sampleStatics ⟨3, false⟩ true).1 = sampleScreen ∧
      (sampleScreen.remove sampleStatics ⟨3, false⟩ true).2.removeQueue =
        sampleStatics.removeQueue ++ [(⟨3, false⟩, true)]) ∧
    ((sampleIdleScreen.remove sampleStatics ⟨3, false⟩ true).1 =
        { sampleIdleScreen with gObjects := sampleIdleScreen.gObjects.erase 3 } ∧
      (sampleIdleScreen.gObjects.erase 3).contains 3 = false) :=
  ⟨(remove_deferred_or_immediate sampleScreen sampleStatics ⟨3, false⟩ true).1 rfl,
   ((remove_deferred_or_immediate sampleIdleScreen sampleStatics ⟨3, false⟩ true).2
      (by decide)).2.2.1 (by decide) (by decide)⟩

theorem eraseFirst_snd (scr : Screen) (id : GameObjectID) :
    (scr.eraseFirst id).2 = scr.registered id := by
  unfold Screen.eraseFirst Screen.registered
  cases h1 : scr.objects.contains id <;> cases h2 : scr.gObjects.contains id <;>
    cases h3 : scr.uiObjects.contains id <;> simp

theorem eraseFirst_unregistered (scr : Screen) (id : GameObjectID)
    (h : scr.registered id = false) : (scr.eraseFirst id).1 = scr := by
  simp only [Screen.registered, Bool.or_eq_false_iff] at h
  simp [Screen.eraseFirst, h.1.1, h.1.2, h.2]

theorem eraseFirst_registered_self (scr : Screen) (id : GameObjectID) (hd : scr.DisjointIds) :
    (scr.eraseFirst id).1.registered id = false := by
  have hd' := hd id
  unfold Screen.eraseFirst Screen.registered
  cases h1 : scr.objects.contains id <;> cases h2 : scr.gObjects.contains id <;>
    cases h3 : scr.uiObjects.contains id <;>
    simp_all [contains_erase_self]

theorem eraseFirst_registered_ne (scr : Screen) (id id' : GameObjectID) (hne : id' ≠ id) :
    (scr.eraseFirst id).1.registered id' = scr.registered id' := by
  have hb : (id' != id) = true := by simpa using hne
  unfold Screen.eraseFirst Screen.registered
  cases h1 : scr.objects.contains id <;> cases h2 : scr.gObjects.contains id <;>
    cases h3 : scr.uiObjects.contains id <;> simp [contains_erase, hb]

theorem eraseFirst_registered_le (scr : Screen) (id id' : GameObjectID)
    (h : scr.registered id' = false) : (scr.eraseFirst id).1.registered id' = false := by
  simp only [Screen.registered, Bool.or_eq_false_iff] at h
  unfold Screen.eraseFirst Screen.registered
  cases h1 : scr.objects.contains id <;> cases h2 : scr.gObjects.contains id <;>
    cases h3 : scr.uiObjects.contains id <;> simp [contains_erase, h.1.1, h.1.2, h.2]

theorem eraseFirst_disjoint (scr : Screen) (id : GameObjectID) (hd : scr.DisjointIds) :
    (scr.eraseFirst id).1.DisjointIds := by
  intro x
  have hx := hd x
  unfold Screen.eraseFirst
  cases h1 : scr.objects.contains id <;> cases h2 : scr.gObjects.contains id <;>
    cases h3 : scr.uiObjects.contains id <;>
    simp only [if_true, if_false, Bool.false_eq_true, contains_erase, Bool.and_eq_true] <;>
    tauto

theorem drainEntry_fst (scr : Screen) (g : Statics) (e : GameObject × Bool) :
    (drainEntry scr g e).1 = (scr.eraseFirst e.1.id).1 := by
  unfold drainEntry
  by_cases h : (scr.eraseFirst e.1.id).2 = true
  · simp [h]
  · have h' : scr.registered e.1.id = false := by
      rw [← eraseFirst_snd]; simpa using h
    simp [h, eraseFirst_unregistered scr _ h']

theorem drainEntry_queue (scr : Screen) (g : Statics) (e : GameObject × Bool) :
    (drainEntry scr g e).2.removeQueue = g.removeQueue := by
  unfold drainEntry
  by_cases h : (scr.eraseFirst e.1.id).2 = true <;> simp [h]

theorem drainEntry_log (scr : Screen) (g : Statics) (e : GameObject × Bool) :
    (drainEntry scr g e).2.removedFromScreen =
      g.removedFromScreen ++ (if scr.registered e.1.id then [e.1.id] else []) := by
  unfold drainEntry
  by_cases h : (scr.eraseFirst e.1.id).2 = true
  · have h' : scr.registered e.1.id = true := by rw [← eraseFirst_snd]; exact h
    simp [h, h']
  · have h' : scr.registered e.1.id = false := by
      rw [← eraseFirst_snd]; simpa using h
    simp [h, h']

theorem drainEntries_append (a b : List (GameObject × Bool)) (st : Screen × Statics) :
    drainEntries (a ++ b) st = drainEntries b (drainEntries a st) := by
  induction a generalizing st with
  | nil => rfl
  | cons e rest ih =>
    show drainEntries (rest ++ b) (drainEntry st.1 st.2 e) = _
    rw [ih]
    rfl

theorem drainEntries_queue (q : List (GameObject × Bool)) (st : Screen × Statics) :
    (drainEntries q st).2.removeQueue = st.2.removeQueue := by
  induction q generalizing st with
  | nil => rfl
  | cons e rest ih => simp only [drainEntries, ih, drainEntry_queue]

theorem drainEntries_disjoint (q : List (GameObject × Bool)) (st : Screen × Statics)
    (hd : st.1.DisjointIds) : (drainEntries q st).1.DisjointIds := by
  induction q generalizing st with
  | nil => exact hd
  | cons e rest ih =>
    simp only [drainEntries]
    apply ih
    rw [drainEntry_fst]
    exact eraseFirst_disjoint _ _ hd

/-- An object that is in no collection is not notified by the drain and stays out. -/
theorem drainEntries_unregistered (id : GameObjectID) (q : List (GameObject × Bool))
    (st : Screen × Statics) (h : st.1.registered id = false) :
    List.count id (drainEntries q st).2.removedFromScreen = List.count id st.2.removedFromScreen ∧
    (drainEntries q st).1.registered id = false := by
  induction q generalizing st with
  | nil => exact ⟨rfl, h⟩
  | cons e rest ih =>
    simp only [drainEntries]
    have h1 : (drainEntry st.1 st.2 e).1.registered id = false := by
      rw [drainEntry_fst]; exact eraseFirst_registered_le _ _ _ h
    have h2 := ih (drainEntry st.1 st.2 e) h1
    refine ⟨?_, h2.2⟩
    rw [h2.1, drainEntry_log, List.count_append]
    by_cases he : e.1.id = id
    · rw [he, h]; simp
    · split
      · simp [List.count_singleton, he]
      · simp

/-- An object that is in a collection and has an entry in the queue is notified once. -/
theorem drainEntries_registered (id : GameObjectID) (q : List (GameObject × Bool))
    (st : Screen × Statics) (hd : st.1.DisjointIds) (h : st.1.registered id = true)
    (hq : id ∈ q.map (fun e => e.1.id)) :
    List.count id (drainEntries q st).2.removedFromScreen =
      List.count id st.2.removedFromScreen + 1 := by
  induction q generalizing st with
  | nil => simp at hq
  | cons e rest ih =>
    simp only [drainEntries]
    by_cases he : e.1.id = id
    · have h1 : (drainEntry st.1 st.2 e).1.registered id = false := by
        rw [drainEntry_fst, he]; exact eraseFirst_registered_self _ _ hd
      rw [(drainEntries_unregistered id rest _ h1).1, drainEntry_log, List.count_append, he, h]
      simp
    · have hq' : id ∈ rest.map (fun e => e.1.id) := by
        simp only [List.map_cons, List.mem_cons] at hq
        rcases hq with hq | hq
        · exact absurd hq.symm he
        · exact hq
      have h1 : (drainEntry st.1 st.2 e).1.registered id = true := by
        rw [drainEntry_fst, eraseFirst_registered_ne _ _ _ (fun x => he x.symm)]; exact h
      have h2 : (drainEntry st.1 st.2 e).1.DisjointIds := by
        rw [drainEntry_fst]; exact eraseFirst_disjoint _ _ hd
      rw [ih _ h2 h1 hq', drainEntry_log, List.count_append]
      split
      · simp [List.count_singleton, he]
      · simp

theorem eraseFirst_addr (scr : Screen) (id : GameObjectID) :
    (scr.eraseFirst id).1.addr = scr.addr := by
  unfold Screen.eraseFirst
  cases h1 : scr.objects.contains id <;> cases h2 : scr.gObjects.contains id <;>
    cases h3 : scr.uiObjects.contains id <;> simp

theorem remove_immediate (scr : Screen) (g : Statics) (obj : GameObject)
    (hcur : g.currentScreen ≠ some scr.addr) :
    scr.remove g obj false = ((scr.eraseFirst obj.id).1, g) := by
  have hcur' : some scr.addr ≠ g.currentScreen := fun h => hcur h.symm
  simp [Screen.remove, hcur']

theorem remove_deferred (scr : Screen) (g : Statics) (obj : GameObject) (autoDelete : Bool)
    (hcur : g.currentScreen = some scr.addr) :
    scr.remove g obj autoDelete =
      (scr, { g with removeQueue := g.removeQueue ++ [(obj, autoDelete)] }) := by
  simp [Screen.remove, hcur]

/-- C6: on a screen whose three collections are disjoint by id, removing the same object
twice (`autoDelete = false`) leaves the same screen as removing it once, and removing an
object whose id is in no collection changes nothing. This holds for two immediate
removals on a screen that is not running, and for two removals queued on the running
screen (no pending entry asks for `delete`, so that every queued pointer stays valid) and
applied by the drain at the end of the tick: there the drain leaves the queue empty and
invokes `RemovedFromScreen()` of the object exactly once if it was in a collection and
never otherwise. -/
theorem removal_idempotent (scr : Screen) (g : Statics) (obj : GameObject)
    (hd : scr.DisjointIds) :
    (g.currentScreen ≠ some scr.addr →
      (removeAll scr g [(obj, false), (obj, false)]).1 = (removeAll scr g [(obj, false)]).1 ∧
      (scr.registered obj.id = false → (removeAll scr g [(obj, false)]).1 = scr)) ∧
    (g.currentScreen = some scr.addr → (∀ e ∈ g.removeQueue, e.2 = false) →
      (removeAllThenDrain scr g [(obj, false), (obj, false)]).1 =
        (removeAllThenDrain scr g [(obj, false)]).1 ∧
      (removeAllThenDrain scr g [(obj, false), (obj, false)]).2.removeQueue = [] ∧
      List.count obj.id (removeAllThenDrain scr g [(obj, false), (obj, false)]).2.removedFromScreen =
        List.count obj.id g.removedFromScreen + (if scr.registered obj.id then 1 else 0) ∧
      (scr.registered obj.id = false →
        (removeAllThenDrain scr g [(obj, false), (obj, false)]).1 =
          (removeAllThenDrain scr g []).1)) := by
  constructor
  · intro hcur
    have hcur2 : g.currentScreen ≠ some (scr.eraseFirst obj.id).1.addr := by
      rw [eraseFirst_addr]; exact hcur
    constructor
    · simp only [removeAll, remove_immediate scr g obj hcur,
        remove_immediate (scr.eraseFirst obj.id).1 g obj hcur2]
      exact eraseFirst_unregistered _ _ (eraseFirst_registered_self scr obj.id hd)
    · intro hun
      simp only [removeAll, remove_immediate scr g obj hcur]
      exact eraseFirst_unregistered _ _ hun
  · intro hcur _
    have h1 : removeAll scr g [(obj, false)] =
        (scr, { g with removeQueue := g.removeQueue ++ [(obj, false)] }) := by
      simp only [removeAll, remove_deferred scr g obj false hcur]
    have h2 : removeAll scr g [(obj, false), (obj, false)] =
        (scr, { g with removeQueue := (g.removeQueue ++ [(obj, false)]) ++ [(obj, false)] }) := by
      simp only [removeAll, remove_deferred scr g obj false hcur]
      rw [remove_deferred scr _ obj false (by simpa using hcur)]
    have e2 : removeAllThenDrain scr g [(obj, false), (obj, false)] =
        drainEntries ((g.removeQueue ++ [(obj, false)]) ++ [(obj, false)])
          (scr, { g with removeQueue := [] }) := by
      unfold removeAllThenDrain
      rw [h2]
      rfl
    have e1 : removeAllThenDrain scr g [(obj, false)] =
        drainEntries (g.removeQueue ++ [(obj, false)]) (scr, { g with removeQueue := [] }) := by
      unfold removeAllThenDrain
      rw [h1]
      rfl
    have e0 : removeAllThenDrain scr g [] =
        drainEntries g.removeQueue (scr, { g with removeQueue := [] }) := rfl
    have hX := drainEntries_disjoint g.removeQueue (scr, { g with removeQueue := [] }) hd
    rw [e2, e1, e0]
    refine ⟨?_, ?_, ?_, ?_⟩
    · simp only [drainEntries_append, drainEntries, drainEntry_fst]
      exact eraseFirst_unregistered _ _ (eraseFirst_registered_self _ obj.id hX)
    · rw [drainEntries_queue]
    · by_cases hreg : scr.registered obj.id = true
      · rw [drainEntries_registered obj.id _ (scr, { g with removeQueue := [] }) hd hreg
          (by simp)]
        simp [hreg]
      · have hreg' : scr.registered obj.id = false := by simpa using hreg
        rw [(drainEntries_unregistered obj.id _ (scr, { g with removeQueue := [] }) hreg').1]
        simp [hreg']
    · intro hun
      have hun' := (drainEntries_unregistered obj.id g.removeQueue
        (scr, { g with removeQueue := [] }) hun).2
      simp only [drainEntries_append, drainEntries, drainEntry_fst]
      rw [eraseFirst_unregistered _ _ hun', eraseFirst_unregistered _ _ hun']

theorem sampleScreen_disjoint : sampleScreen.DisjointIds := by
  intro id
  simp only [sampleScreen, GameObjectMap.contains, List.any_cons, List.any_nil, Bool.or_false,
    beq_iff_eq, Bool.false_eq_true, and_false, not_false_eq_true, and_true, not_and]
  rintro rfl
  decide

theorem sampleIdleScreen_disjoint : sampleIdleScreen.DisjointIds := by
  intro id
  simp only [sampleIdleScreen, GameObjectMap.contains, List.any_cons, List.any_nil,
    Bool.or_false, beq_iff_eq, not_and]
  refine ⟨?_, ?_, ?_⟩ <;> (rintro rfl; decide)

/-- Witness of C6: object 5 is removed twice from the idle sample screen, and object 3 is
removed twice from the running sample screen and the queue is drained. -/
theorem removal_idempotent_witness :
    ((removeAll sampleIdleScreen sampleStatics [(⟨5, false⟩, false), (⟨5, false⟩, false)]).1 =
        (removeAll sampleIdleScreen sampleStatics [(⟨5, false⟩, false)]).1 ∧
      (sampleIdleScreen.registered 9 = false →
        (removeAll sampleIdleScreen sampleStatics [(⟨9, false⟩, false)]).1 = sampleIdleScreen)) ∧
    ((removeAllThenDrain sampleScreen sampleStatics [(⟨3, false⟩, false), (⟨3, false⟩, false)]).1 =
        (removeAllThenDrain sampleScreen sampleStatics [(⟨3, false⟩, false)]).1 ∧
      (removeAllThenDrain sampleScreen sampleStatics
        [(⟨3, false⟩, false), (⟨3, false⟩, false)]).2.removeQueue = [] ∧
      List.count 3 (removeAllThenDrain sampleScreen sampleStatics
        [(⟨3, false⟩, false), (⟨3, false⟩, false)]).2.removedFromScreen =
        List.count 3 sampleStatics.removedFromScreen +
          (if sampleScreen.registered 3 then 1 else 0) ∧
      (sampleScreen.registered 3 = false →
        (removeAllThenDrain sampleScreen sampleStatics
          [(⟨3, false⟩, false), (⟨3, false⟩, false)]).1 =
          (removeAllThenDrain sampleScreen sampleStatics []).1)) :=
  ⟨⟨((removal_idempotent sampleIdleScreen sampleStatics ⟨5, false⟩
        sampleIdleScreen_disjoint).1
        (by decide)).1,
    ((removal_idempotent sampleIdleScreen sampleStatics ⟨9, false⟩
        sampleIdleScreen_disjoint).1
        (by decide)).2⟩,
   (removal_idempotent sampleScreen sampleStatics ⟨3, false⟩
        sampleScreen_disjoint).2 rfl
     (by decide)⟩

/-! ## Target rate and pacing -/

theorem clampFps_eq (fps : Int) : clampFps fps = min (max fps 1) 1000 := by
  unfold clampFps
  split_ifs with h1 h2
  · rw [max_eq_right (by omega), min_eq_left (by omega)]
  · rw [max_eq_left (by omega), min_eq_right (by omega)]
  · rw [max_eq_left (by omega), min_eq_left (by omega)]

theorem renderEntry_currentFPS (this : Nat) (fps : Int) (g : LoopStatics) :
    (renderEntry this fps g).1.currentFPS = clampFps fps := by
  unfold renderEntry
  simp only []
  split <;> rfl

/-- The pacing loop ends at the first reading of the clock that is not below the budget. -/
theorem pacingLoop_first (currentFPS : Int) (earlier : List Int) (elapsed : Int)
    (later : List Int) (hearlier : ∀ r ∈ earlier, r < frameBudget currentFPS)
    (helapsed : frameBudget currentFPS ≤ elapsed) :
    pacingLoop currentFPS (earlier ++ elapsed :: later) = some elapsed := by
  induction earlier with
  | nil =>
    have h : pacingWaits currentFPS elapsed = false := by
      simp only [pacingWaits, decide_eq_false_iff_not, not_lt]
      exact helapsed
    simp [pacingLoop, h]
  | cons r rest ih =>
    have h : pacingWaits currentFPS r = true := by
      simp only [pacingWaits, decide_eq_true_eq]
      exact hearlier r (List.mem_cons_self _ _)
    simp only [List.cons_append, pacingLoop, h, if_true]
    exact ih (fun x hx => hearlier x (List.mem_cons_of_mem _ hx))

/-- C7: every call `render(fps)`, whether it starts the loop or returns at line 109 while
a loop runs, leaves `currentFPS = min (max fps 1) 1000`, which is not zero; the budget
that line 452 computes from it is `1000000` divided by that rate and lies between `1000`
and `1000000`; the pacing loop that runs with it ends at the first reading of the clock
that is not below that budget, after every reading below it; and `render(0)` leaves the
file-level variables, and with them the pacing, exactly as `render(1)`, and `render(5000)`
as `render(1000)`. -/
theorem target_rate_clamp (this : Nat) (fps : Int) (g : LoopStatics) :
    (renderEntry this fps g).1.currentFPS = min (max fps 1) 1000 ∧
    (renderEntry this fps g).1.currentFPS ≠ 0 ∧
    frameBudget (renderEntry this fps g).1.currentFPS = 1000000 / min (max fps 1) 1000 ∧
    1000 ≤ frameBudget (renderEntry this fps g).1.currentFPS ∧
    frameBudget (renderEntry this fps g).1.currentFPS ≤ 1000000 ∧
    (∀ (earlier : List Int) (elapsed : Int) (later : List Int),
      (∀ r ∈ earlier, r < 1000000 / min (max fps 1) 1000) →
      1000000 / min (max fps 1) 1000 ≤ elapsed →
      pacingLoop (renderEntry this fps g).1.currentFPS (earlier ++ elapsed :: later) =
        some elapsed) ∧
    renderEntry this 0 g = renderEntry this 1 g ∧
    renderEntry this 5000 g = renderEntry this 1000 g := by
  have hc : (renderEntry this fps g).1.currentFPS = min (max fps 1) 1000 := by
    rw [renderEntry_currentFPS, clampFps_eq]
  have hlo : 1 ≤ min (max fps 1) 1000 := le_min (le_max_right _ _) (by decide)
  have hhi : min (max fps 1) 1000 ≤ 1000 := min_le_right _ _
  have hb : frameBudget (renderEntry this fps g).1.currentFPS =
      1000000 / min (max fps 1) 1000 := by
    rw [hc]
    unfold frameBudget
    exact Int.tdiv_eq_ediv (by omega) (by omega)
  have h01 : clampFps 0 = clampFps 1 := by decide
  have h51 : clampFps 5000 = clampFps 1000 := by decide
  refine ⟨hc, by rw [hc]; omega, hb, ?_, ?_, ?_, ?_, ?_⟩
  · rw [hb]
    exact Int.le_ediv_of_mul_le (by omega) (by omega)
  · rw [hb]
    exact Int.ediv_le_self _ (by omega)
  · intro earlier elapsed later hearlier helapsed
    apply pacingLoop_first
    · rw [hb]; exact hearlier
    · rw [hb]; exact helapsed
  · simp only [renderEntry, h01]
  · simp only [renderEntry, h51]

/-- Witness of C7: `render(60)` as the first call has a budget of 16666 microseconds, and
the pacing loop with the readings 0, 5000, 16665, 16666, 20000 ends at 16666. -/
theorem target_rate_clamp_witness :
    pacingLoop (renderEntry 1 60 sampleLoopStatics).1.currentFPS
      ([0, 5000, 16665] ++ 16666 :: [20000]) = some 16666 :=
  (target_rate_clamp 1 60 sampleLoopStatics).2.2.2.2.2.1 [0, 5000, 16665] 16666 [20000]
    (by decide) (by decide)

/-! ## Viewport follower -/

theorem clamp_low {x hw w : K} (hx : x ≤ hw) (hw2 : hw ≤ w - hw) :
    min (max x hw) (w - hw) = hw := by
  rw [max_eq_right hx, min_eq_left hw2]

theorem clamp_mid {x hw w : K} (h1 : hw < x) (h2 : x < w - hw) :
    min (max x hw) (w - hw) = x := by
  rw [max_eq_left (le_of_lt h1), min_eq_left (le_of_lt h2)]

theorem clamp_high {x hw w : K} (h1 : hw < x) (h2 : w - hw ≤ x) :
    min (max x hw) (w - hw) = w - hw := by
  rw [max_eq_left (le_of_lt h1), min_eq_right h2]

/-- C8 (counterexample): on a map of width 100 with a window of width 500 (half-viewport
250), the character at `(W, 0) = (100, 0)` puts the camera at `(hw, hh) = (250, 250)` and
not at `(W - hw, hh) = (-150, 250)`. -/
theorem viewport_narrow_map_counterexample :
    followCharacter 100 400 500 500 ((100, 0) : Vec2 ℤ) (7, 7) = (250, 250) ∧
    followCharacter 100 400 500 500 ((100, 0) : Vec2 ℤ) (7, 7) ≠ (100 - 250, 250) := by
  decide


/-- C10: when the map is at least as large as the viewport (`W ≥ 2 * hw`, `H ≥ 2 * hh`) and
the main character is on the map (`0 ≤ x ≤ W`, `0 ≤ y ≤ H`), the nine branches of the
viewport follower set the center of the camera to
`(min (max x hw) (W - hw), min (max y hh) (H - hh))`, whatever the center was before. -/
theorem nine_region_is_clamp (mapWidth mapHeight windowWidth windowHeight : Nat)
    (pos center : Vec2 K)
    (hmapW : 2 * (windowWidth / 2) ≤ mapWidth) (hmapH : 2 * (windowHeight / 2) ≤ mapHeight)
    (hx0 : 0 ≤ pos.1) (hxW : pos.1 ≤ (mapWidth : K))
    (hy0 : 0 ≤ pos.2) (hyH : pos.2 ≤ (mapHeight : K)) :
    followCharacter mapWidth mapHeight windowWidth windowHeight pos center =
      (min (max pos.1 ((windowWidth / 2 : Nat) : K))
          ((mapWidth : K) - ((windowWidth / 2 : Nat) : K)),
       min (max pos.2 ((windowHeight / 2 : Nat) : K))
          ((mapHeight : K) - ((windowHeight / 2 : Nat) : K))) := by
  have hW : ((windowWidth / 2 : Nat) : K) ≤ (mapWidth : K) - ((windowWidth / 2 : Nat) : K) := by
    have h : ((2 * (windowWidth / 2) : Nat) : K) ≤ (mapWidth : K) := Nat.cast_le.mpr hmapW
    push_cast at h
    linarith
  have hH : ((windowHeight / 2 : Nat) : K) ≤ (mapHeight : K) - ((windowHeight / 2 : Nat) : K) := by
    have h : ((2 * (windowHeight / 2) : Nat) : K) ≤ (mapHeight : K) := Nat.cast_le.mpr hmapH
    push_cast at h
    linarith
  unfold followCharacter
  simp only []
  rcases le_or_lt pos.1 ((windowWidth / 2 : Nat) : K) with hx | hx1
  · rcases le_or_lt pos.2 ((windowHeight / 2 : Nat) : K) with hy | hy1
    · have n1 : ¬ (pos.1 > ((windowWidth / 2 : Nat) : K) ∧ pos.1 < (mapWidth : K) - ((windowWidth / 2 : Nat) : K) ∧ pos.2 > ((windowHeight / 2 : Nat) : K) ∧ pos.2 < (mapHeight : K) - ((windowHeight / 2 : Nat) : K)) :=
        fun h => absurd h.1 (not_lt.mpr hx)
      have hb : pos.1 ≥ 0 ∧ pos.1 ≤ ((windowWidth / 2 : Nat) : K) ∧ pos.2 ≥ 0 ∧ pos.2 ≤ ((windowHeight / 2 : Nat) : K) :=
        ⟨hx0, hx, hy0, hy⟩
      rw [if_neg n1, if_pos hb]
      exact Prod.ext (clamp_low hx hW).symm (clamp_low hy hH).symm
    · rcases lt_or_le pos.2 ((mapHeight : K) - ((windowHeight / 2 : Nat) : K)) with hy2 | hy2
      · have n1 : ¬ (pos.1 > ((windowWidth / 2 : Nat) : K) ∧ pos.1 < (mapWidth : K) - ((windowWidth / 2 : Nat) : K) ∧ pos.2 > ((windowHeight / 2 : Nat) : K) ∧ pos.2 < (mapHeight : K) - ((windowHeight / 2 : Nat) : K)) :=
          fun h => absurd h.1 (not_lt.mpr hx)
        have n2 : ¬ (pos.1 ≥ 0 ∧ pos.1 ≤ ((windowWidth / 2 : Nat) : K) ∧ pos.2 ≥ 0 ∧ pos.2 ≤ ((windowHeight / 2 : Nat) : K)) :=
          fun h => absurd h.2.2.2 (not_le.mpr hy1)
        have n3 : ¬ (pos.1 ≥ 0 ∧ pos.1 ≤ ((windowWidth / 2 : Nat) : K) ∧ pos.2 ≥ (mapHeight : K) - ((windowHeight / 2 : Nat) : K) ∧ pos.2 ≤ (mapHeight : K)) :=
          fun h => absurd h.2.2.1 (not_le.mpr hy2)
        have n4 : ¬ (pos.1 ≥ (mapWidth : K) - ((windowWidth / 2 : Nat) : K) ∧ pos.1 ≤ (mapWidth : K) ∧ pos.2 ≥ 0 ∧ pos.2 ≤ ((windowHeight / 2 : Nat) : K)) :=
          fun h => absurd h.2.2.2 (not_le.mpr hy1)
        have n5 : ¬ (pos.1 ≥ (mapWidth : K) - ((windowWidth / 2 : Nat) : K) ∧ pos.1 ≤ (mapWidth : K) ∧ pos.2 ≥ (mapHeight : K) - ((windowHeight / 2 : Nat) : K) ∧ pos.2 ≤ (mapHeight : K)) :=
          fun h => absurd h.2.2.1 (not_le.mpr hy2)
        have n6 : ¬ (pos.1 > ((windowWidth / 2 : Nat) : K) ∧ pos.1 < (mapWidth : K) - ((windowWidth / 2 : Nat) : K) ∧ pos.2 ≥ 0 ∧ pos.2 ≤ ((windowHeight / 2 : Nat) : K)) :=
          fun h => absurd h.1 (not_lt.mpr hx)
        have n7 : ¬ (pos.1 > ((windowWidth / 2 : Nat) : K) ∧ pos.1 < (mapWidth : K) - ((windowWidth / 2 : Nat) : K) ∧ pos.2 ≥ (mapHeight : K) - ((windowHeight / 2 : Nat) : K) ∧ pos.2 ≤ (mapHeight : K)) :=
          fun h => absurd h.1 (not_lt.mpr hx)
        have hb : pos.1 ≥ 0 ∧ pos.1 ≤ ((windowWidth / 2 : Nat) : K) ∧ pos.2 > ((windowHeight / 2 : Nat) : K) ∧ pos.2 < (mapHeight : K) - ((windowHeight / 2 : Nat) : K) :=
          ⟨hx0, hx, hy1, hy2⟩
        rw [if_neg n1, if_neg n2, if_neg n3, if_neg n4, if_neg n5, if_neg n6, if_neg n7, if_pos hb]
        exact Prod.ext (clamp_low hx hW).symm (clamp_mid hy1 hy2).symm
      · have n1 : ¬ (pos.1 > ((windowWidth / 2 : Nat) : K) ∧ pos.1 < (mapWidth : K) - ((windowWidth / 2 : Nat) : K) ∧ pos.2 > ((windowHeight / 2 : Nat) : K) ∧ pos.2 < (mapHeight : K) - ((windowHeight / 2 : Nat) : K)) :=
          fun h => absurd h.1 (not_lt.mpr hx)
        have n2 : ¬ (pos.1 ≥ 0 ∧ pos.1 ≤ ((windowWidth / 2 : Nat) : K) ∧ pos.2 ≥ 0 ∧ pos.2 ≤ ((windowHeight / 2 : Nat) : K)) :=
          fun h => absurd h.2.2.2 (not_le.mpr hy1)
        have hb : pos.1 ≥ 0 ∧ pos.1 ≤ ((windowWidth / 2 : Nat) : K) ∧ pos.2 ≥ (mapHeight : K) - ((windowHeight / 2 : Nat) : K) ∧ pos.2 ≤ (mapHeight : K) :=
          ⟨hx0, hx, hy2, hyH⟩
        rw [if_neg n1, if_neg n2, if_pos hb]
        exact Prod.ext (clamp_low hx hW).symm (clamp_high hy1 hy2).symm
  · rcases lt_or_le pos.1 ((mapWidth : K) - ((windowWidth / 2 : Nat) : K)) with hx2 | hx2
    · rcases le_or_lt pos.2 ((windowHeight / 2 : Nat) : K) with hy | hy1
      · have n1 : ¬ (pos.1 > ((windowWidth / 2 : Nat) : K) ∧ pos.1 < (mapWidth : K) - ((windowWidth / 2 : Nat) : K) ∧ pos.2 > ((windowHeight / 2 : Nat) : K) ∧ pos.2 < (mapHeight : K) - ((windowHeight / 2 : Nat) : K)) :=
          fun h => absurd h.2.2.1 (not_lt.mpr hy)
        have n2 : ¬ (pos.1 ≥ 0 ∧ pos.1 ≤ ((windowWidth / 2 : Nat) : K) ∧ pos.2 ≥ 0 ∧ pos.2 ≤ ((windowHeight / 2 : Nat) : K)) :=
          fun h => absurd h.2.1 (not_le.mpr hx1)
        have n3 : ¬ (pos.1 ≥ 0 ∧ pos.1 ≤ ((windowWidth / 2 : Nat) : K) ∧ pos.2 ≥ (mapHeight : K) - ((windowHeight / 2 : Nat) : K) ∧ pos.2 ≤ (mapHeight : K)) :=
          fun h => absurd h.2.1 (not_le.mpr hx1)
        have n4 : ¬ (pos.1 ≥ (mapWidth : K) - ((windowWidth / 2 : Nat) : K) ∧ pos.1 ≤ (mapWidth : K) ∧ pos.2 ≥ 0 ∧ pos.2 ≤ ((windowHeight / 2 : Nat) : K)) :=
          fun h => absurd h.1 (not_le.mpr hx2)
        have n5 : ¬ (pos.1 ≥ (mapWidth : K) - ((windowWidth / 2 : Nat) : K) ∧ pos.1 ≤ (mapWidth : K) ∧ pos.2 ≥ (mapHeight : K) - ((windowHeight / 2 : Nat) : K) ∧ pos.2 ≤ (mapHeight : K)) :=
          fun h => absurd h.1 (not_le.mpr hx2)
        have hb : pos.1 > ((windowWidth / 2 : Nat) : K) ∧ pos.1 < (mapWidth : K) - ((windowWidth / 2 : Nat) : K) ∧ pos.2 ≥ 0 ∧ pos.2 ≤ ((windowHeight / 2 : Nat) : K) :=
          ⟨hx1, hx2, hy0, hy⟩
        rw [if_neg n1, if_neg n2, if_neg n3, if_neg n4, if_neg n5, if_pos hb]
        exact Prod.ext (clamp_mid hx1 hx2).symm (clamp_low hy hH).symm
      · rcases lt_or_le pos.2 ((mapHeight : K) - ((windowHeight / 2 : Nat) : K)) with hy2 | hy2
        · have hb : pos.1 > ((windowWidth / 2 : Nat) : K) ∧ pos.1 < (mapWidth : K) - ((windowWidth / 2 : Nat) : K) ∧ pos.2 > ((windowHeight / 2 : Nat) : K) ∧ pos.2 < (mapHeight : K) - ((windowHeight / 2 : Nat) : K) :=
            ⟨hx1, hx2, hy1, hy2⟩
          rw [if_pos hb]
          exact Prod.ext (clamp_mid hx1 hx2).symm (clamp_mid hy1 hy2).symm
        · have n1 : ¬ (pos.1 > ((windowWidth / 2 : Nat) : K) ∧ pos.1 < (mapWidth : K) - ((windowWidth / 2 : Nat) : K) ∧ pos.2 > ((windowHeight / 2 : Nat) : K) ∧ pos.2 < (mapHeight : K) - ((windowHeight / 2 : Nat) : K)) :=
            fun h => absurd h.2.2.2 (not_lt.mpr hy2)
          have n2 : ¬ (pos.1 ≥ 0 ∧ pos.1 ≤ ((windowWidth / 2 : Nat) : K) ∧ pos.2 ≥ 0 ∧ pos.2 ≤ ((windowHeight / 2 : Nat) : K)) :=
            fun h => absurd h.2.1 (not_le.mpr hx1)
          have n3 : ¬ (pos.1 ≥ 0 ∧ pos.1 ≤ ((windowWidth / 2 : Nat) : K) ∧ pos.2 ≥ (mapHeight : K) - ((windowHeight / 2 : Nat) : K) ∧ pos.2 ≤ (mapHeight : K)) :=
            fun h => absurd h.2.1 (not_le.mpr hx1)
          have n4 : ¬ (pos.1 ≥ (mapWidth : K) - ((windowWidth / 2 : Nat) : K) ∧ pos.1 ≤ (mapWidth : K) ∧ pos.2 ≥ 0 ∧ pos.2 ≤ ((windowHeight / 2 : Nat) : K)) :=
            fun h => absurd h.1 (not_le.mpr hx2)
          have n5 : ¬ (pos.1 ≥ (mapWidth : K) - ((windowWidth / 2 : Nat) : K) ∧ pos.1 ≤ (mapWidth : K) ∧ pos.2 ≥ (mapHeight : K) - ((windowHeight / 2 : Nat) : K) ∧ pos.2 ≤ (mapHeight : K)) :=
            fun h => absurd h.1 (not_le.mpr hx2)
          have n6 : ¬ (pos.1 > ((windowWidth / 2 : Nat) : K) ∧ pos.1 < (mapWidth : K) - ((windowWidth / 2 : Nat) : K) ∧ pos.2 ≥ 0 ∧ pos.2 ≤ ((windowHeight / 2 : Nat) : K)) :=
            fun h => absurd h.2.2.2 (not_le.mpr hy1)
          have hb : pos.1 > ((windowWidth / 2 : Nat) : K) ∧ pos.1 < (mapWidth : K) - ((windowWidth / 2 : Nat) : K) ∧ pos.2 ≥ (mapHeight : K) - ((windowHeight / 2 : Nat) : K) ∧ pos.2 ≤ (mapHeight : K) :=
            ⟨hx1, hx2, hy2, hyH⟩
          rw [if_neg n1, if_neg n2, if_neg n3, if_neg n4, if_neg n5, if_neg n6, if_pos hb]
          exact Prod.ext (clamp_mid hx1 hx2).symm (clamp_high hy1 hy2).symm
    · rcases le_or_lt pos.2 ((windowHeight / 2 : Nat) : K) with hy | hy1
      · have n1 : ¬ (pos.1 > ((windowWidth / 2 : Nat) : K) ∧ pos.1 < (mapWidth : K) - ((windowWidth / 2 : Nat) : K) ∧ pos.2 > ((windowHeight / 2 : Nat) : K) ∧ pos.2 < (mapHeight : K) - ((windowHeight / 2 : Nat) : K)) :=
          fun h => absurd h.2.1 (not_lt.mpr hx2)
        have n2 : ¬ (pos.1 ≥ 0 ∧ pos.1 ≤ ((windowWidth / 2 : Nat) : K) ∧ pos.2 ≥ 0 ∧ pos.2 ≤ ((windowHeight / 2 : Nat) : K)) :=
          fun h => absurd h.2.1 (not_le.mpr hx1)
        have n3 : ¬ (pos.1 ≥ 0 ∧ pos.1 ≤ ((windowWidth / 2 : Nat) : K) ∧ pos.2 ≥ (mapHeight : K) - ((windowHeight / 2 : Nat) : K) ∧ pos.2 ≤ (mapHeight : K)) :=
          fun h => absurd h.2.1 (not_le.mpr hx1)
        have hb : pos.1 ≥ (mapWidth : K) - ((windowWidth / 2 : Nat) : K) ∧ pos.1 ≤ (mapWidth : K) ∧ pos.2 ≥ 0 ∧ pos.2 ≤ ((windowHeight / 2 : Nat) : K) :=
          ⟨hx2, hxW, hy0, hy⟩
        rw [if_neg n1, if_neg n2, if_neg n3, if_pos hb]
        exact Prod.ext (clamp_high hx1 hx2).symm (clamp_low hy hH).symm
      · rcases lt_or_le pos.2 ((mapHeight : K) - ((windowHeight / 2 : Nat) : K)) with hy2 | hy2
        · have n1 : ¬ (pos.1 > ((windowWidth / 2 : Nat) : K) ∧ pos.1 < (mapWidth : K) - ((windowWidth / 2 : Nat) : K) ∧ pos.2 > ((windowHeight / 2 : Nat) : K) ∧ pos.2 < (mapHeight : K) - ((windowHeight / 2 : Nat) : K)) :=
            fun h => absurd h.2.1 (not_lt.mpr hx2)
          have n2 : ¬ (pos.1 ≥ 0 ∧ pos.1 ≤ ((windowWidth / 2 : Nat) : K) ∧ pos.2 ≥ 0 ∧ pos.2 ≤ ((windowHeight / 2 : Nat) : K)) :=
            fun h => absurd h.2.1 (not_le.mpr hx1)
          have n3 : ¬ (pos.1 ≥ 0 ∧ pos.1 ≤ ((windowWidth / 2 : Nat) : K) ∧ pos.2 ≥ (mapHeight : K) - ((windowHeight / 2 : Nat) : K) ∧ pos.2 ≤ (mapHeight : K)) :=
            fun h => absurd h.2.1 (not_le.mpr hx1)
          have n4 : ¬ (pos.1 ≥ (mapWidth : K) - ((windowWidth / 2 : Nat) : K) ∧ pos.1 ≤ (mapWidth : K) ∧ pos.2 ≥ 0 ∧ pos.2 ≤ ((windowHeight / 2 : Nat) : K)) :=
            fun h => absurd h.2.2.2 (not_le.mpr hy1)
          have n5 : ¬ (pos.1 ≥ (mapWidth : K) - ((windowWidth / 2 : Nat) : K) ∧ pos.1 ≤ (mapWidth : K) ∧ pos.2 ≥ (mapHeight : K) - ((windowHeight / 2 : Nat) : K) ∧ pos.2 ≤ (mapHeight : K)) :=
            fun h => absurd h.2.2.1 (not_le.mpr hy2)
          have n6 : ¬ (pos.1 > ((windowWidth / 2 : Nat) : K) ∧ pos.1 < (mapWidth : K) - ((windowWidth / 2 : Nat) : K) ∧ pos.2 ≥ 0 ∧ pos.2 ≤ ((windowHeight / 2 : Nat) : K)) :=
            fun h => absurd h.2.1 (not_lt.mpr hx2)
          have n7 : ¬ (pos.1 > ((windowWidth / 2 : Nat) : K) ∧ pos.1 < (mapWidth : K) - ((windowWidth / 2 : Nat) : K) ∧ pos.2 ≥ (mapHeight : K) - ((windowHeight / 2 : Nat) : K) ∧ pos.2 ≤ (mapHeight : K)) :=
            fun h => absurd h.2.1 (not_lt.mpr hx2)
          have n8 : ¬ (pos.1 ≥ 0 ∧ pos.1 ≤ ((windowWidth / 2 : Nat) : K) ∧ pos.2 > ((windowHeight / 2 : Nat) : K) ∧ pos.2 < (mapHeight : K) - ((windowHeight / 2 : Nat) : K)) :=
            fun h => absurd h.2.1 (not_le.mpr hx1)
          have hb : pos.1 ≥ (mapWidth : K) - ((windowWidth / 2 : Nat) : K) ∧ pos.1 ≤ (mapWidth : K) ∧ pos.2 > ((windowHeight / 2 : Nat) : K) ∧ pos.2 < (mapHeight : K) - ((windowHeight / 2 : Nat) : K) :=
            ⟨hx2, hxW, hy1, hy2⟩
          rw [if_neg n1, if_neg n2, if_neg n3, if_neg n4, if_neg n5, if_neg n6, if_neg n7, if_neg n8, if_pos hb]
          exact Prod.ext (clamp_high hx1 hx2).symm (clamp_mid hy1 hy2).symm
        · have n1 : ¬ (pos.1 > ((windowWidth / 2 : Nat) : K) ∧ pos.1 < (mapWidth : K) - ((windowWidth / 2 : Nat) : K) ∧ pos.2 > ((windowHeight / 2 : Nat) : K) ∧ pos.2 < (mapHeight : K) - ((windowHeight / 2 : Nat) : K)) :=
            fun h => absurd h.2.1 (not_lt.mpr hx2)
          have n2 : ¬ (pos.1 ≥ 0 ∧ pos.1 ≤ ((windowWidth / 2 : Nat) : K) ∧ pos.2 ≥ 0 ∧ pos.2 ≤ ((windowHeight / 2 : Nat) : K)) :=
            fun h => absurd h.2.1 (not_le.mpr hx1)
          have n3 : ¬ (pos.1 ≥ 0 ∧ pos.1 ≤ ((windowWidth / 2 : Nat) : K) ∧ pos.2 ≥ (mapHeight : K) - ((windowHeight / 2 : Nat) : K) ∧ pos.2 ≤ (mapHeight : K)) :=
            fun h => absurd h.2.1 (not_le.mpr hx1)
          have n4 : ¬ (pos.1 ≥ (mapWidth : K) - ((windowWidth / 2 : Nat) : K) ∧ pos.1 ≤ (mapWidth : K) ∧ pos.2 ≥ 0 ∧ pos.2 ≤ ((windowHeight / 2 : Nat) : K)) :=
            fun h => absurd h.2.2.2 (not_le.mpr hy1)
          have hb : pos.1 ≥ (mapWidth : K) - ((windowWidth / 2 : Nat) : K) ∧ pos.1 ≤ (mapWidth : K) ∧ pos.2 ≥ (mapHeight : K) - ((windowHeight / 2 : Nat) : K) ∧ pos.2 ≤ (mapHeight : K) :=
            ⟨hx2, hxW, hy2, hyH⟩
          rw [if_neg n1, if_neg n2, if_neg n3, if_neg n4, if_pos hb]
          exact Prod.ext (clamp_high hx1 hx2).symm (clamp_high hy1 hy2).symm

/-- Witness of C10 on integer coordinates: a 1000 x 800 map, a 500 x 400 window and the
character at `(100, 400)`, near the left edge. -/
theorem nine_region_is_clamp_witness :
    followCharacter 1000 800 500 400 ((100, 400) : Vec2 ℤ) (7, 7) =
      (min (max (100 : ℤ) ((500 / 2 : Nat) : ℤ)) (((1000 : Nat) : ℤ) - ((500 / 2 : Nat) : ℤ)),
       min (max (400 : ℤ) ((400 / 2 : Nat) : ℤ)) (((800 : Nat) : ℤ) - ((400 / 2 : Nat) : ℤ))) :=
  nine_region_is_clamp 1000 800 500 400 ((100, 400) : Vec2 ℤ) (7, 7)
    (by decide) (by decide) (by decide) (by decide) (by decide) (by decide)

/-- The second branch: a character in the top-left corner region. -/
theorem followCharacter_top_left (mapWidth mapHeight windowWidth windowHeight : Nat)
    (pos center : Vec2 K) (hx0 : 0 ≤ pos.1) (hx : pos.1 ≤ ((windowWidth / 2 : Nat) : K))
    (hy0 : 0 ≤ pos.2) (hy : pos.2 ≤ ((windowHeight / 2 : Nat) : K)) :
    followCharacter mapWidth mapHeight windowWidth windowHeight pos center =
      (((windowWidth / 2 : Nat) : K), ((windowHeight / 2 : Nat) : K)) := by
  unfold followCharacter
  simp only []
  have n1 : ¬ (pos.1 > ((windowWidth / 2 : Nat) : K) ∧
      pos.1 < (mapWidth : K) - ((windowWidth / 2 : Nat) : K) ∧
      pos.2 > ((windowHeight / 2 : Nat) : K) ∧
      pos.2 < (mapHeight : K) - ((windowHeight / 2 : Nat) : K)) :=
    fun h => absurd h.1 (not_lt.mpr hx)
  have hb : pos.1 ≥ 0 ∧ pos.1 ≤ ((windowWidth / 2 : Nat) : K) ∧ pos.2 ≥ 0 ∧
      pos.2 ≤ ((windowHeight / 2 : Nat) : K) := ⟨hx0, hx, hy0, hy⟩
  rw [if_neg n1, if_pos hb]

/-- The fourth branch: a character in the top-right corner region, right of the left
region. -/
theorem followCharacter_top_right (mapWidth mapHeight windowWidth windowHeight : Nat)
    (pos center : Vec2 K) (hx1 : ((windowWidth / 2 : Nat) : K) < pos.1)
    (hx2 : (mapWidth : K) - ((windowWidth / 2 : Nat) : K) ≤ pos.1) (hxW : pos.1 ≤ (mapWidth : K))
    (hy0 : 0 ≤ pos.2) (hy : pos.2 ≤ ((windowHeight / 2 : Nat) : K)) :
    followCharacter mapWidth mapHeight windowWidth windowHeight pos center =
      ((mapWidth : K) - ((windowWidth / 2 : Nat) : K), ((windowHeight / 2 : Nat) : K)) := by
  unfold followCharacter
  simp only []
  have n1 : ¬ (pos.1 > ((windowWidth / 2 : Nat) : K) ∧
      pos.1 < (mapWidth : K) - ((windowWidth / 2 : Nat) : K) ∧
      pos.2 > ((windowHeight / 2 : Nat) : K) ∧
      pos.2 < (mapHeight : K) - ((windowHeight / 2 : Nat) : K)) :=
    fun h => absurd h.2.1 (not_lt.mpr hx2)
  have n2 : ¬ (pos.1 ≥ 0 ∧ pos.1 ≤ ((windowWidth / 2 : Nat) : K) ∧ pos.2 ≥ 0 ∧
      pos.2 ≤ ((windowHeight / 2 : Nat) : K)) :=
    fun h => absurd h.2.1 (not_le.mpr hx1)
  have n3 : ¬ (pos.1 ≥ 0 ∧ pos.1 ≤ ((windowWidth / 2 : Nat) : K) ∧
      pos.2 ≥ (mapHeight : K) - ((windowHeight / 2 : Nat) : K) ∧ pos.2 ≤ (mapHeight : K)) :=
    fun h => absurd h.2.1 (not_le.mpr hx1)
  have hb : pos.1 ≥ (mapWidth : K) - ((windowWidth / 2 : Nat) : K) ∧ pos.1 ≤ (mapWidth : K) ∧
      pos.2 ≥ 0 ∧ pos.2 ≤ ((windowHeight / 2 : Nat) : K) := ⟨hx2, hxW, hy0, hy⟩
  rw [if_neg n1, if_neg n2, if_neg n3, if_pos hb]

/-- The first branch: a character farther than half a viewport from every edge. -/
theorem followCharacter_center (mapWidth mapHeight windowWidth windowHeight : Nat)
    (pos center : Vec2 K) (hx1 : ((windowWidth / 2 : Nat) : K) < pos.1)
    (hx2 : pos.1 < (mapWidth : K) - ((windowWidth / 2 : Nat) : K))
    (hy1 : ((windowHeight / 2 : Nat) : K) < pos.2)
    (hy2 : pos.2 < (mapHeight : K) - ((windowHeight / 2 : Nat) : K)) :
    followCharacter mapWidth mapHeight windowWidth windowHeight pos center = pos := by
  unfold followCharacter
  simp only []
  have hb : pos.1 > ((windowWidth / 2 : Nat) : K) ∧
      pos.1 < (mapWidth : K) - ((windowWidth / 2 : Nat) : K) ∧
      pos.2 > ((windowHeight / 2 : Nat) : K) ∧
      pos.2 < (mapHeight : K) - ((windowHeight / 2 : Nat) : K) := ⟨hx1, hx2, hy1, hy2⟩
  rw [if_pos hb]

/-- C8 (amended): for every map size, window size and previous center of the camera, the
viewport follower sets the center to `(hw, hh)` when the main character is at `(0, 0)`;
with the character at `(W, 0)` it sets the center to `(W - hw, hh)` exactly when the map
is wider than half the viewport (`hw < W`) or `hw = 0`; and when the map is larger than the
viewport (`2 * hw < W`, `2 * hh < H`) and the character is at the center of the map
(`2 * x = W`, `2 * y = H`), it sets the center to the position of the character. -/
theorem viewport_reference_points (mapWidth mapHeight windowWidth windowHeight : Nat)
    (center : Vec2 K) :
    followCharacter mapWidth mapHeight windowWidth windowHeight ((0, 0) : Vec2 K) center =
      (((windowWidth / 2 : Nat) : K), ((windowHeight / 2 : Nat) : K)) ∧
    (followCharacter mapWidth mapHeight windowWidth windowHeight (((mapWidth : K), 0) : Vec2 K)
        center = ((mapWidth : K) - ((windowWidth / 2 : Nat) : K), ((windowHeight / 2 : Nat) : K)) ↔
      (windowWidth / 2 < mapWidth ∨ windowWidth / 2 = 0)) ∧
    (∀ pos : Vec2 K, 2 * (windowWidth / 2) < mapWidth → 2 * (windowHeight / 2) < mapHeight →
      2 * pos.1 = (mapWidth : K) → 2 * pos.2 = (mapHeight : K) →
      followCharacter mapWidth mapHeight windowWidth windowHeight pos center = pos) := by
  have hw0 : (0 : K) ≤ ((windowWidth / 2 : Nat) : K) := Nat.cast_nonneg _
  have hh0 : (0 : K) ≤ ((windowHeight / 2 : Nat) : K) := Nat.cast_nonneg _
  have hW0 : (0 : K) ≤ (mapWidth : K) := Nat.cast_nonneg _
  refine ⟨?_, ?_, ?_⟩
  · exact followCharacter_top_left mapWidth mapHeight windowWidth windowHeight (0, 0) center
      (le_refl (0 : K)) hw0 (le_refl (0 : K)) hh0
  · constructor
    · intro h
      by_contra hn
      have hn' : mapWidth ≤ windowWidth / 2 ∧ windowWidth / 2 ≠ 0 := by omega
      have hle : (mapWidth : K) ≤ ((windowWidth / 2 : Nat) : K) := Nat.cast_le.mpr hn'.1
      rw [followCharacter_top_left mapWidth mapHeight windowWidth windowHeight
        ((mapWidth : K), 0) center hW0 hle (le_refl (0 : K)) hh0] at h
      have h1 : ((windowWidth / 2 : Nat) : K) = (mapWidth : K) - ((windowWidth / 2 : Nat) : K) :=
        (Prod.mk.inj h).1
      have h2 : ((2 * (windowWidth / 2) : Nat) : K) = ((mapWidth : Nat) : K) := by
        push_cast
        linarith
      have h3 : 2 * (windowWidth / 2) = mapWidth := Nat.cast_injective h2
      omega
    · rintro (hlt | hz)
      · have hlt' : ((windowWidth / 2 : Nat) : K) < (mapWidth : K) := Nat.cast_lt.mpr hlt
        exact followCharacter_top_right mapWidth mapHeight windowWidth windowHeight
          ((mapWidth : K), 0) center hlt' (sub_le_self _ hw0) (le_refl _) (le_refl (0 : K)) hh0
      · rcases Nat.eq_zero_or_pos mapWidth with hm | hm
        · have hle : (mapWidth : K) ≤ ((windowWidth / 2 : Nat) : K) := by
            rw [hm, hz]
          rw [followCharacter_top_left mapWidth mapHeight windowWidth windowHeight
            ((mapWidth : K), 0) center hW0 hle (le_refl (0 : K)) hh0, hm, hz]
          simp
        · have hlt' : ((windowWidth / 2 : Nat) : K) < (mapWidth : K) :=
            Nat.cast_lt.mpr (by omega)
          exact followCharacter_top_right mapWidth mapHeight windowWidth windowHeight
            ((mapWidth : K), 0) center hlt' (sub_le_self _ hw0) (le_refl _) (le_refl (0 : K)) hh0
  · intro pos hmW hmH hx hy
    have hW : ((2 * (windowWidth / 2) : Nat) : K) < (mapWidth : K) := Nat.cast_lt.mpr hmW
    have hH : ((2 * (windowHeight / 2) : Nat) : K) < (mapHeight : K) := Nat.cast_lt.mpr hmH
    push_cast at hW hH
    exact followCharacter_center mapWidth mapHeight windowWidth windowHeight pos center
      (by linarith) (by linarith) (by linarith) (by linarith)

/-- Witness of C8 (amended) on integer coordinates: a 1000 x 800 map and a 500 x 400
window, with the character at `(0, 0)`, at `(1000, 0)` and at the center `(500, 400)`. -/
theorem viewport_reference_points_witness :
    followCharacter 1000 800 500 400 ((0, 0) : Vec2 ℤ) (7, 7) =
      (((500 / 2 : Nat) : ℤ), ((400 / 2 : Nat) : ℤ)) ∧
    followCharacter 1000 800 500 400 ((((1000 : Nat) : ℤ), 0) : Vec2 ℤ) (7, 7) =
      (((1000 : Nat) : ℤ) - ((500 / 2 : Nat) : ℤ), ((400 / 2 : Nat) : ℤ)) ∧
    followCharacter 1000 800 500 400 ((500, 400) : Vec2 ℤ) (7, 7) = (500, 400) :=
  ⟨(viewport_reference_points 1000 800 500 400 ((7, 7) : Vec2 ℤ)).1,
   (viewport_reference_points 1000 800 500 400 ((7, 7) : Vec2 ℤ)).2.1.mpr (Or.inl (by decide)),
   (viewport_reference_points 1000 800 500 400 ((7, 7) : Vec2 ℤ)).2.2 (500, 400)
     (by decide) (by decide) (by decide) (by decide)⟩

/-! ## Event phase -/

/-- The loop returns at line 140 when a window-close event is pending, and when `running`
is false and at least one event is pending. -/
theorem pollEvents_returned (handlerCloses : EventType → Bool) (running : Bool)
    (events : List EventType)
    (h : EventType.Closed ∈ events ∨ (running = false ∧ events ≠ [])) :
    (pollEvents handlerCloses running events).returned = true := by
  induction events generalizing running with
  | nil =>
    rcases h with h | h
    · cases h
    · exact absurd rfl h.2
  | cons event rest ih =>
    unfold pollEvents
    by_cases hc : event = EventType.Closed ∨ running = false
    · rw [if_pos hc]
    · rw [if_neg hc]
      have hc' : event ≠ EventType.Closed ∧ running ≠ false := not_or.mp hc
      rcases h with h | h
      · rcases List.mem_cons.mp h with h1 | h1
        · exact absurd h1.symm hc'.1
        · exact ih _ (Or.inl h1)
      · exact absurd h.1 hc'.2

/-- Without a pending event the test of line 137 is never made: the value of `running`
has no effect on the event phase. -/
theorem pollEvents_nil (handlerCloses : EventType → Bool) (running : Bool) :
    pollEvents handlerCloses running [] = ⟨false, running, []⟩ := by
  cases running <;> rfl

/-- C9 (the code at the failing input): with the stop signal raised (`running = false`
after `close()`) and no pending event, the event phase does not return, and the tick goes
through all its later phases: draw, collision notification, viewport update, drain of the
removal queue and pacing wait. -/
theorem stop_without_event_runs_all_phases (handlerCloses : EventType → Bool) :
    (pollEvents handlerCloses (close true) []).returned = false ∧
    tickPhases handlerCloses (close true) [] =
      ([Phase.update, Phase.events, Phase.draw, Phase.collisions, Phase.viewport, Phase.drain,
        Phase.pacing], false) := by
  constructor
  · rfl
  · rfl

/-! ## Map-bounds clamp -/

theorem subU32_eq (a b : Nat) (ha : a < 2 ^ 32) (hb : b ≤ a) : subU32 a b = a - b := by
  unfold subU32
  have h1 : a % 2 ^ 32 = a := Nat.mod_eq_of_lt ha
  have h2 : b % 2 ^ 32 = b := Nat.mod_eq_of_lt (by omega)
  rw [h1, h2]
  omega

theorem naturalSize_lt (g : Graphic K) :
    (naturalSize g).1 < 2 ^ 32 ∧ (naturalSize g).2 < 2 ^ 32 := by
  cases g with
  | sprite s =>
    simp only [naturalSize, toUnsigned]
    constructor <;> omega
  | transformable p => simp [naturalSize]
  | drawable => simp [naturalSize]

theorem mapExtent_lt (tMap : Option (TileMap K)) :
    (mapExtent tMap).1 < 2 ^ 32 ∧ (mapExtent tMap).2 < 2 ^ 32 := by
  cases tMap with
  | none => simp [mapExtent]
  | some t =>
    simp only [mapExtent, mulU32]
    constructor <;> omega

/-- One axis of the clamp: the check of the lower edge followed by the check of the upper
edge is `min (max x 0) (w - s)` when the box fits (`s ≤ w`). -/
theorem clamp_axis (x w s : K) (hs : s ≤ w) :
    (if (if x < 0 then 0 else x) + s > w then w - s else (if x < 0 then 0 else x)) =
      min (max x 0) (w - s) := by
  by_cases hx : x < 0
  · rw [if_pos hx, max_eq_right (le_of_lt hx)]
    have h1 : ¬ ((0 : K) + s > w) := by
      rw [zero_add]; exact not_lt.mpr hs
    rw [if_neg h1, min_eq_left (sub_nonneg.mpr hs)]
  · rw [if_neg hx, max_eq_left (not_lt.mp hx)]
    by_cases h2 : x + s > w
    · rw [if_pos h2]
      have : w - s ≤ x := by linarith
      rw [min_eq_right this]
    · rw [if_neg h2]
      have : x ≤ w - s := by linarith [not_lt.mp h2]
      rw [min_eq_left this]

/-- The four edge checks of lines 258-261 act on each axis separately. -/
theorem clampToMap_axes (fl : K → K) (mapWidth mapHeight : Nat) (size : Nat × Nat)
    (p : Vec2 K) :
    clampToMap fl mapWidth mapHeight size p =
      ((if fl ((if p.1 < 0 then 0 else p.1) + fl (size.1 : K)) > fl (mapWidth : K)
          then fl (subU32 mapWidth size.1 : K) else (if p.1 < 0 then 0 else p.1)),
       (if fl ((if p.2 < 0 then 0 else p.2) + fl (size.2 : K)) > fl (mapHeight : K)
          then fl (subU32 mapHeight size.2 : K) else (if p.2 < 0 then 0 else p.2))) := by
  obtain ⟨x, y⟩ := p
  unfold clampToMap
  simp only []
  split_ifs <;> simp_all

theorem ite_neg_eq_max (x : K) : (if x < 0 then 0 else x) = max x 0 := by
  by_cases hx : x < 0
  · rw [if_pos hx, max_eq_right (le_of_lt hx)]
  · rw [if_neg hx, max_eq_left (not_lt.mp hx)]

/-- One axis of the clamp with a rounded sum: when the rounded sum exceeds the extent
exactly when the exact sum does, the two checks give `min (max x 0) (w - s)`. -/
theorem clamp_axis_rounded (fl : K → K) (x w s : K) (hs : s ≤ w)
    (hsum : w < fl (max x 0 + s) ↔ w < max x 0 + s) :
    (if fl ((if x < 0 then 0 else x) + s) > w then w - s else (if x < 0 then 0 else x)) =
      min (max x 0) (w - s) := by
  rw [← clamp_axis x w s hs, ite_neg_eq_max]
  by_cases h : w < max x 0 + s
  · rw [if_pos (hsum.mpr h), if_pos h]
  · rw [if_neg (fun h' => h (hsum.mp h')), if_neg h]

/-- The properties of the clamp of one axis for a box that fits (`s ≤ w`): the box lies
within `[0, w]`, a violated lower edge gives `0`, a violated upper edge gives `w - s`, and a
coordinate that violates neither edge is unchanged. -/
theorem clamp_axis_props (x w s : K) (hs : s ≤ w) :
    0 ≤ min (max x 0) (w - s) ∧ min (max x 0) (w - s) + s ≤ w ∧
    (x < 0 → min (max x 0) (w - s) = 0) ∧
    (w < x + s → min (max x 0) (w - s) = w - s) ∧
    (0 ≤ x → x + s ≤ w → min (max x 0) (w - s) = x) := by
  refine ⟨le_min (le_max_right _ _) (sub_nonneg.mpr hs), ?_, ?_, ?_, ?_⟩
  · have h := min_le_right (max x 0) (w - s)
    linarith
  · intro hx
    rw [max_eq_right (le_of_lt hx), min_eq_left (sub_nonneg.mpr hs)]
  · intro hx
    have h1 : w - s ≤ x := by linarith
    exact min_eq_right (le_trans h1 (le_max_left _ _))
  · intro hx0 hxw
    rw [max_eq_left hx0]
    exact min_eq_left (by linarith)

/-- The placement correction runs its loop from the clamped position: the clamp of lines
258-261 comes first, and the override box enters only the corners of the loop. -/
theorem placementCorrection_after_clamp (fl : K → K) (t : TileMap K) (rands : List Nat)
    (obj : GraphicalGameObject K) :
    placementCorrection fl (some t) rands obj =
      match clampedPosition fl (some t) obj with
      | none => some obj
      | some p' =>
        match resolveLoop fl t (collisionBox obj).1 (collisionBox obj).2 obj.lastPos rands
            obj.spawnCollisionsResolved p' with
        | none => none
        | some (q, resolved) => some (obj.leaveAt q resolved) := by
  unfold placementCorrection clampedPosition
  cases hio : obj.ignoreObstacles
  · cases hp : obj.graphic.getPosition <;> simp
  · simp

/-- The clamp depends on the rounding of the sum: when the binary32 sum of a position just
right of zero and the width 100 rounds to the extent 100, as it does for `x = 10⁻⁸`, the
check of the right edge does not fire and the position stays, where exact arithmetic
gives `W - sx = 0`. -/
theorem clamp_rounded_sum_hides_violation (fl : ℚ → ℚ) (h0 : fl 0 = 0) (h100 : fl 100 = 100)
    (hsum : fl (1 / 10 ^ 8 + 100) = 100) :
    clampToMap fl 100 100 (100, 0) ((1 / 10 ^ 8, 0) : Vec2 ℚ) = (1 / 10 ^ 8, 0) ∧
    min (max (1 / 10 ^ 8 : ℚ) 0) (100 - 100) = 0 := by
  constructor
  · rw [clampToMap_axes]
    have hx : ¬ ((1 / 10 ^ 8 : ℚ) < 0) := by norm_num
    simp only [hx, if_false, lt_irrefl, Nat.cast_ofNat, Nat.cast_zero, h0, h100, hsum,
      add_zero, gt_iff_lt]
    norm_num
  · norm_num

/-- C11 (counterexample): a sprite of natural size 8 x 8 with an override collision box of
size 20 x 20 stands at `(95, 50)` on a 100 x 100 map. The bounding box of the claim is the
override box, and the claim gives `(min (max 95 0) (100 - 20), 50) = (80, 50)`; the clamp
step gives `(92, 50)`, the value for the natural size, and the placement correction leaves
the object there, with the override box reaching to `92 + 20 = 112` beyond the map. All
values are whole numbers, for which binary32 arithmetic is exact. -/
theorem clamp_ignores_override_box :
    collisionBox (sampleOverrideObject : GraphicalGameObject ℤ) = ((0, 0), (20, 20)) ∧
    clampedPosition id (some openMap) (sampleOverrideObject : GraphicalGameObject ℤ) =
      some (92, 50) ∧
    ((92, 50) : Vec2 ℤ) ≠ (min (max 95 0) (100 - 20), min (max 50 0) (100 - 20)) ∧
    (placementCorrection id (some openMap) []
      (sampleOverrideObject : GraphicalGameObject ℤ)).map
      (fun o => o.graphic.getPosition) = some (some (92, 50)) ∧
    ((100 : ℤ) < 92 + 20) := by
  decide

/-- C11 (amended): for every world-graphical object with `ignoreObstacles = false` and a
transformable graphic at `(x, y)`, with `(sx, sy)` the natural size of the drawable (the
texture rectangle of a sprite, `(0, 0)` otherwise) whether or not an override collision
box is set, and every map extent `(W, H)` with `sx ≤ W` and `sy ≤ H`: when the whole
numbers up to the extent convert to `float` exactly, and the binary32 sums
`max x 0 + sx` and `max y 0 + sy` exceed `W` and `H` exactly when the exact sums do, the
four edge checks of the clamp step turn the position into
`(min (max x 0) (W - sx), min (max y 0) (H - sy))`; afterwards the box of the natural size
lies within `[0, W] x [0, H]`, a violated edge is corrected to `0` or to `W - sx`
(`H - sy`), and a coordinate whose edges are not violated is unchanged. -/
theorem map_bounds_clamp (fl : K → K) (tMap : Option (TileMap K)) (obj : GraphicalGameObject K)
    (p : Vec2 K)
    (hio : obj.ignoreObstacles = false) (hp : obj.graphic.getPosition = some p)
    (hsx : (naturalSize obj.graphic).1 ≤ (mapExtent tMap).1)
    (hsy : (naturalSize obj.graphic).2 ≤ (mapExtent tMap).2)
    (hcast : ∀ n : Nat, n ≤ max (mapExtent tMap).1 (mapExtent tMap).2 → fl (n : K) = (n : K))
    (hsumx : ((mapExtent tMap).1 : K) < fl (max p.1 0 + ((naturalSize obj.graphic).1 : K)) ↔
      ((mapExtent tMap).1 : K) < max p.1 0 + ((naturalSize obj.graphic).1 : K))
    (hsumy : ((mapExtent tMap).2 : K) < fl (max p.2 0 + ((naturalSize obj.graphic).2 : K)) ↔
      ((mapExtent tMap).2 : K) < max p.2 0 + ((naturalSize obj.graphic).2 : K)) :
    clampedPosition fl tMap obj =
      some (min (max p.1 0) (((mapExtent tMap).1 : K) - ((naturalSize obj.graphic).1 : K)),
            min (max p.2 0) (((mapExtent tMap).2 : K) - ((naturalSize obj.graphic).2 : K))) ∧
    (0 ≤ min (max p.1 0) (((mapExtent tMap).1 : K) - ((naturalSize obj.graphic).1 : K)) ∧
      min (max p.1 0) (((mapExtent tMap).1 : K) - ((naturalSize obj.graphic).1 : K)) +
        ((naturalSize obj.graphic).1 : K) ≤ ((mapExtent tMap).1 : K) ∧
      (p.1 < 0 →
        min (max p.1 0) (((mapExtent tMap).1 : K) - ((naturalSize obj.graphic).1 : K)) = 0) ∧
      (((mapExtent tMap).1 : K) < p.1 + ((naturalSize obj.graphic).1 : K) →
        min (max p.1 0) (((mapExtent tMap).1 : K) - ((naturalSize obj.graphic).1 : K)) =
          ((mapExtent tMap).1 : K) - ((naturalSize obj.graphic).1 : K)) ∧
      (0 ≤ p.1 → p.1 + ((naturalSize obj.graphic).1 : K) ≤ ((mapExtent tMap).1 : K) →
        min (max p.1 0) (((mapExtent tMap).1 : K) - ((naturalSize obj.graphic).1 : K)) = p.1)) ∧
    (0 ≤ min (max p.2 0) (((mapExtent tMap).2 : K) - ((naturalSize obj.graphic).2 : K)) ∧
      min (max p.2 0) (((mapExtent tMap).2 : K) - ((naturalSize obj.graphic).2 : K)) +
        ((naturalSize obj.graphic).2 : K) ≤ ((mapExtent tMap).2 : K) ∧
      (p.2 < 0 →
        min (max p.2 0) (((mapExtent tMap).2 : K) - ((naturalSize obj.graphic).2 : K)) = 0) ∧
      (((mapExtent tMap).2 : K) < p.2 + ((naturalSize obj.graphic).2 : K) →
        min (max p.2 0) (((mapExtent tMap).2 : K) - ((naturalSize obj.graphic).2 : K)) =
          ((mapExtent tMap).2 : K) - ((naturalSize obj.graphic).2 : K)) ∧
      (0 ≤ p.2 → p.2 + ((naturalSize obj.graphic).2 : K) ≤ ((mapExtent tMap).2 : K) →
        min (max p.2 0) (((mapExtent tMap).2 : K) - ((naturalSize obj.graphic).2 : K)) = p.2)) := by
  have hsx' : ((naturalSize obj.graphic).1 : K) ≤ ((mapExtent tMap).1 : K) := Nat.cast_le.mpr hsx
  have hsy' : ((naturalSize obj.graphic).2 : K) ≤ ((mapExtent tMap).2 : K) := Nat.cast_le.mpr hsy
  refine ⟨?_, clamp_axis_props _ _ _ hsx', clamp_axis_props _ _ _ hsy'⟩
  have hW : fl ((mapExtent tMap).1 : K) = ((mapExtent tMap).1 : K) :=
    hcast _ (le_max_left _ _)
  have hH : fl ((mapExtent tMap).2 : K) = ((mapExtent tMap).2 : K) :=
    hcast _ (le_max_right _ _)
  have hfsx : fl ((naturalSize obj.graphic).1 : K) = ((naturalSize obj.graphic).1 : K) :=
    hcast _ (le_trans hsx (le_max_left _ _))
  have hfsy : fl ((naturalSize obj.graphic).2 : K) = ((naturalSize obj.graphic).2 : K) :=
    hcast _ (le_trans hsy (le_max_right _ _))
  have hcx : fl ((subU32 (mapExtent tMap).1 (naturalSize obj.graphic).1 : Nat) : K) =
      ((mapExtent tMap).1 : K) - ((naturalSize obj.graphic).1 : K) := by
    rw [subU32_eq _ _ (mapExtent_lt tMap).1 hsx,
      hcast _ (le_trans (Nat.sub_le _ _) (le_max_left _ _)), Nat.cast_sub hsx]
  have hcy : fl ((subU32 (mapExtent tMap).2 (naturalSize obj.graphic).2 : Nat) : K) =
      ((mapExtent tMap).2 : K) - ((naturalSize obj.graphic).2 : K) := by
    rw [subU32_eq _ _ (mapExtent_lt tMap).2 hsy,
      hcast _ (le_trans (Nat.sub_le _ _) (le_max_right _ _)), Nat.cast_sub hsy]
  unfold clampedPosition
  rw [hio, hp]
  simp only [Bool.false_eq_true, if_false]
  rw [clampToMap_axes, hcx, hcy, hW, hH, hfsx, hfsy,
    clamp_axis_rounded fl _ _ _ hsx' hsumx, clamp_axis_rounded fl _ _ _ hsy' hsumy]

/-- Witness of C11 (amended) on integer coordinates with exact arithmetic: the sample
object with the override box, at `(95, 50)` on the open 100 x 100 map, is clamped by its
natural size 8 x 8. -/
theorem map_bounds_clamp_witness :
    clampedPosition id (some openMap) (sampleOverrideObject : GraphicalGameObject ℤ) =
      some (min (max 95 0) (((100 : Nat) : ℤ) - ((8 : Nat) : ℤ)),
            min (max 50 0) (((100 : Nat) : ℤ) - ((8 : Nat) : ℤ))) :=
  (map_bounds_clamp id (some (openMap : TileMap ℤ)) sampleOverrideObject (95, 50)
    rfl rfl (by decide) (by decide) (fun _ _ => rfl) Iff.rfl Iff.rfl).1

end Engine
